import Mathlib

/-!
Student performance and attendance tracking: model of the backend.

Shallow embedding of `backend/utils/performanceUtils.js`,
`backend/controllers/performanceController.js`,
`backend/controllers/studentController.js` and the two Mongoose schemas.

Conventions of the embedding
* JavaScript numbers are exact rationals (`ℚ`); `NaN` and the infinities are not
  represented. Arithmetic is exact, except in `calculateAverageDouble`, which rounds
  every operation to the nearest IEEE-754 double.
* A JavaScript object is the list of its own entries in `Object.entries` order.
* The two collections are lists in natural (insertion) order; `new Date()` is a
  clock value handed to the handler.
* A handler is a function from the request, the clock and the store to the
  response and the store it leaves behind.
-/

namespace Tracker

/-! ## Values -/

/-- A value found inside a parsed JSON body. Nested arrays and objects are not
inspected by any handler and are collapsed into `object`. -/
inductive JsVal where
  | undefined
  | null
  | bool (b : Bool)
  | num (q : ℚ)
  | str (s : String)
  | object
  deriving DecidableEq

/-- A marks object whose values are known to be numbers. -/
abbrev Marks := List (String × ℚ)

/-- The characters `String.prototype.trim` strips: the ECMAScript white space (tab,
vertical tab, form feed, U+FEFF and the space separators of Unicode) and the line
terminators. -/
def isWhiteSpace (c : Char) : Bool :=
  let n := c.toNat
  n == 0x09 || n == 0x0A || n == 0x0B || n == 0x0C || n == 0x0D || n == 0x20 ||
  n == 0xA0 || n == 0x1680 || (0x2000 ≤ n && n ≤ 0x200A) || n == 0x2028 || n == 0x2029 ||
  n == 0x202F || n == 0x205F || n == 0x3000 || n == 0xFEFF

/-- String method `trim` (the schema's `trim` setter). -/
def trim (s : String) : String :=
  String.mk ((s.data.dropWhile isWhiteSpace).reverse.dropWhile isWhiteSpace).reverse

/-- String method `toUpperCase` (the schema's `uppercase` setter), on ASCII letters. -/
def toUpperCase (s : String) : String :=
  String.mk (s.data.map Char.toUpper)

/-- Value of `Math.round`: the nearest integer, ties going towards `+∞`. -/
def Math.round (x : ℚ) : ℤ := ⌊x + 1 / 2⌋

/-! ## `utils/performanceUtils.js` -/

/-- Source `calculateAverage` with its arithmetic carried out exactly:
`Object.values`, the empty case, the `reduce`, the division by the length and the
rounding through `Math.round(average * 100) / 100`. -/
def calculateAverage (marks : Marks) : ℚ :=
  let marksArray := marks.map Prod.snd
  if marksArray.length = 0 then 0
  else
    let sum := marksArray.foldl (fun total mark => total + mark) 0
    let average := sum / (marksArray.length : ℚ)
    (Math.round (average * 100) : ℚ) / 100

/-- Nearest integer, a tie going to the even one: the rounding of IEEE-754
arithmetic. -/
def roundHalfEven (y : ℚ) : ℤ :=
  let f := ⌊y⌋
  if y - f < 1 / 2 then f
  else if 1 / 2 < y - f then f + 1
  else if f % 2 = 0 then f else f + 1

/-- The double nearest to a rational: 53 significant bits, ties to even, subnormal
below the exponent −1022. Overflow to an infinity is not represented. -/
def toDouble (x : ℚ) : ℚ :=
  if x = 0 then 0
  else
    let e := max (Int.log 2 |x|) (-1022)
    (roundHalfEven (x / (2 : ℚ) ^ (e - 52)) : ℚ) * (2 : ℚ) ^ (e - 52)

/-- Source `calculateAverage` as JavaScript evaluates it, on marks that are doubles:
each `total + mark`, the division by the length, the product `average * 100` and the
final division by 100 are rounded to the nearest double; `Math.round` is exact. -/
def calculateAverageDouble (marks : Marks) : ℚ :=
  let marksArray := marks.map Prod.snd
  if marksArray.length = 0 then 0
  else
    let sum := marksArray.foldl (fun total mark => toDouble (total + mark)) 0
    let average := toDouble (sum / (marksArray.length : ℚ))
    toDouble ((Math.round (toDouble (average * 100)) : ℚ) / 100)

/-- Source `classifyPerformance`: the cascade of `>=` tests. -/
def classifyPerformance (averageMarks : ℚ) : String :=
  if averageMarks ≥ 90 then "Excellent"
  else if averageMarks ≥ 75 then "Good"
  else if averageMarks ≥ 60 then "Average"
  else "Poor"

/-- Source `isLowAttendance` with both arguments given. -/
def isLowAttendance (attendancePercentage : ℚ) (threshold : ℚ) : Bool :=
  decide (attendancePercentage < threshold)

/-- Source `isLowAttendance` called with the threshold omitted (default `75`). -/
def isLowAttendanceDefault (attendancePercentage : ℚ) : Bool :=
  isLowAttendance attendancePercentage 75

/-! ## Documents and the store -/

/-- Identifier of a document (a Mongo `ObjectId`). -/
abbrev ObjectId := Nat

/-- A route parameter naming a document: either a well-formed identifier, or text
that Mongoose cannot cast to an `ObjectId` (the query then throws). -/
inductive IdParam where
  | oid (id : ObjectId)
  | malformed
  deriving DecidableEq

/-- A document of the `Student` schema (`class` and `section` are spelled
`studentClass` and `sectionName`). -/
structure Student where
  _id : ObjectId
  name : String
  rollNumber : String
  studentClass : String
  sectionName : String
  createdAt : Nat
  deriving DecidableEq

/-- A document of the `Performance` schema. -/
structure Performance where
  studentId : ObjectId
  marks : Marks
  attendancePercentage : ℚ
  averageMarks : ℚ
  performanceStatus : String
  lastUpdated : Nat
  deriving DecidableEq

/-- The database: both collections in natural order and the source of fresh
student identifiers. -/
structure Store where
  students : List Student
  performances : List Performance
  nextId : ObjectId
  deriving DecidableEq

/-- The database before any request. -/
def Store.empty : Store := ⟨[], [], 0⟩

/-- What `res.status(..).json(..)` sends: the status code and the `success`,
`message` and `data` members of the body (the `error` text of a 500 is the
driver's and is not kept). -/
structure Response (α : Type) where
  status : Nat
  success : Bool
  message : Option String
  data : Option α
  deriving DecidableEq

/-- Query `Student.findById(id)` on a well-formed identifier. -/
def Student.findById (db : Store) (id : ObjectId) : Option Student :=
  db.students.find? (fun s => s._id == id)

/-- Query `Student.findOne({ rollNumber })`; the schema's `trim` setter is applied to the
query value as it is to stored values. -/
def Student.findOne (db : Store) (rollNumber : String) : Option Student :=
  db.students.find? (fun s => s.rollNumber == trim rollNumber)

/-- Query `Performance.findOne({ studentId })`: the first record of that student. -/
def Performance.findOne (db : Store) (studentId : ObjectId) : Option Performance :=
  db.performances.find? (fun p => p.studentId == studentId)

/-- Validators of the `Performance` schema: `attendancePercentage` and
`averageMarks` within `[0, 100]`, `performanceStatus` in the `enum`. -/
def Performance.validate (p : Performance) : Bool :=
  decide (0 ≤ p.attendancePercentage) && decide (p.attendancePercentage ≤ 100) &&
  decide (0 ≤ p.averageMarks) && decide (p.averageMarks ≤ 100) &&
  decide (p.performanceStatus ∈ ["Excellent", "Good", "Average", "Poor"])

/-- Replace the first element satisfying `hit`, the one `find?` returns. -/
def replaceFirst {α : Type} (hit : α → Bool) (y : α) : List α → List α
  | [] => []
  | x :: xs => if hit x then y :: xs else x :: replaceFirst hit y xs

/-- Call `performance.save()` on the document `Performance.findOne` returned: validation,
then the document is written back in place. `none` is a thrown validation error. -/
def Performance.save (db : Store) (p : Performance) : Option Store :=
  if p.validate then
    some { db with performances := replaceFirst (fun r => r.studentId == p.studentId) p db.performances }
  else none

/-- Call `Performance.create(doc)`: validation, the unique index on `studentId`, then an
insert at the end of the collection. `none` is a thrown error. -/
def Performance.create (db : Store) (p : Performance) : Option Store :=
  if p.validate && (Performance.findOne db p.studentId).isNone then
    some { db with performances := db.performances ++ [p] }
  else none

/-! ## `controllers/performanceController.js` -/

/-- Request of `POST /api/performance/marks/:studentId`. `marks` is `none` when
`req.body.marks` is falsy or not of type `object`, and otherwise the entries of
the object. -/
structure MarksRequest where
  studentId : IdParam
  marks : Option (List (String × JsVal))
  deriving DecidableEq

/-- The test of the validation loop:
`typeof mark !== 'number' || mark < 0 || mark > 100`. -/
def invalidMark : JsVal → Bool
  | .num q => decide (q < 0) || decide (q > 100)
  | _ => true

/-- The validation loop of `addMarks`: the subject of the first entry that fails
the test, if any. -/
def firstInvalidSubject (marksArray : List (String × JsVal)) : Option String :=
  (marksArray.find? (fun e => invalidMark e.2)).map Prod.fst

/-- The entries of a marks object that hold numbers, as numbers. This keeps every
entry of an object that passed the validation loop. -/
def numericMarks : List (String × JsVal) → Marks
  | [] => []
  | (subject, .num q) :: rest => (subject, q) :: numericMarks rest
  | _ :: rest => numericMarks rest

/-- Assignment `obj[key] = value`: an existing key keeps its position, a new key goes
to the end. (JavaScript enumerates integer-like keys first; that reordering is not
represented, and nothing here reads the order of stored marks.) -/
def setKey : Marks → String → ℚ → Marks
  | [], key, value => [(key, value)]
  | (k, v) :: rest, key, value =>
    if k = key then (k, value) :: rest else (k, v) :: setKey rest key value

/-- Object spread `{ ...base, ...over }`. -/
def spread (base over : Marks) : Marks :=
  over.foldl (fun acc e => setKey acc e.1 e.2) base

/-- Source `addMarks`. -/
def addMarks (req : MarksRequest) (now : Nat) (db : Store) : Response Performance × Store :=
  match req.marks with
  | none =>
    (⟨400, false, some "Please provide marks as an object (e.g., \x7bmath: 85, science: 90\x7d)", none⟩, db)
  | some marks =>
    match req.studentId with
    | .malformed => (⟨500, false, some "Error updating marks", none⟩, db)
    | .oid studentId =>
      match Student.findById db studentId with
      | none => (⟨404, false, some "Student not found", none⟩, db)
      | some _ =>
        match firstInvalidSubject marks with
        | some subject =>
          (⟨400, false,
            some ("Invalid marks for " ++ subject ++ ". Marks must be a number between 0 and 100."),
            none⟩, db)
        | none =>
          let averageMarks := calculateAverage (numericMarks marks)
          let performanceStatus := classifyPerformance averageMarks
          match Performance.findOne db studentId with
          | some performance =>
            let performance := { performance with
              marks := spread performance.marks (numericMarks marks),
              averageMarks := averageMarks,
              performanceStatus := performanceStatus,
              lastUpdated := now }
            match Performance.save db performance with
            | some db' => (⟨200, true, some "Marks updated successfully", some performance⟩, db')
            | none => (⟨500, false, some "Error updating marks", none⟩, db)
          | none =>
            let performance : Performance :=
              { studentId := studentId,
                marks := numericMarks marks,
                averageMarks := averageMarks,
                performanceStatus := performanceStatus,
                attendancePercentage := 0,
                lastUpdated := now }
            match Performance.create db performance with
            | some db' => (⟨200, true, some "Marks updated successfully", some performance⟩, db')
            | none => (⟨500, false, some "Error updating marks", none⟩, db)

/-- Request of `POST /api/performance/attendance/:studentId`. -/
structure AttendanceRequest where
  studentId : IdParam
  attendancePercentage : JsVal
  deriving DecidableEq

/-- Source `addAttendance`. -/
def addAttendance (req : AttendanceRequest) (now : Nat) (db : Store) :
    Response Performance × Store :=
  match req.attendancePercentage with
  | .undefined | .null =>
    (⟨400, false, some "Please provide attendancePercentage (0-100)", none⟩, db)
  | .num attendancePercentage =>
    if attendancePercentage < 0 ∨ attendancePercentage > 100 then
      (⟨400, false, some "Attendance percentage must be a number between 0 and 100", none⟩, db)
    else
      match req.studentId with
      | .malformed => (⟨500, false, some "Error updating attendance", none⟩, db)
      | .oid studentId =>
        match Student.findById db studentId with
        | none => (⟨404, false, some "Student not found", none⟩, db)
        | some _ =>
          match Performance.findOne db studentId with
          | some performance =>
            let performance := { performance with
              attendancePercentage := attendancePercentage,
              lastUpdated := now }
            match Performance.save db performance with
            | some db' =>
              (⟨200, true, some "Attendance updated successfully", some performance⟩, db')
            | none => (⟨500, false, some "Error updating attendance", none⟩, db)
          | none =>
            let performance : Performance :=
              { studentId := studentId,
                marks := [],
                attendancePercentage := attendancePercentage,
                averageMarks := 0,
                performanceStatus := "Poor",
                lastUpdated := now }
            match Performance.create db performance with
            | some db' =>
              (⟨200, true, some "Attendance updated successfully", some performance⟩, db')
            | none => (⟨500, false, some "Error updating attendance", none⟩, db)
  | _ =>
    (⟨400, false, some "Attendance percentage must be a number between 0 and 100", none⟩, db)

/-- The `student` member of a low-attendance entry (the populated fields). -/
structure StudentInfo where
  id : ObjectId
  name : String
  rollNumber : String
  studentClass : String
  sectionName : String
  deriving DecidableEq

/-- One element of the `data` array of the low-attendance listing. -/
structure LowAttendanceEntry where
  student : StudentInfo
  attendancePercentage : ℚ
  performanceStatus : String
  deriving DecidableEq

/-- The members `threshold`, `count` and `data` of the low-attendance response. -/
structure LowAttendanceListing where
  threshold : ℚ
  count : Nat
  data : List LowAttendanceEntry
  deriving DecidableEq

/-- The expression `parseFloat(req.query.threshold) || 75`. The argument is the value
of `parseFloat`, `none` being `NaN` (parameter absent or not numeric); `NaN` and `0`
are falsy. -/
def thresholdOrDefault (parsed : Option ℚ) : ℚ :=
  match parsed with
  | none => 75
  | some t => if t = 0 then 75 else t

/-- The callback of `lowAttendanceRecords.map` applied to a populated record;
`none` when `populate` left `null` in `studentId`, where reading `._id` throws. -/
def formatEntry (db : Store) (record : Performance) : Option LowAttendanceEntry :=
  (Student.findById db record.studentId).map fun s =>
    { student := ⟨s._id, s.name, s.rollNumber, s.studentClass, s.sectionName⟩,
      attendancePercentage := record.attendancePercentage,
      performanceStatus := record.performanceStatus }

/-- The call `lowAttendanceRecords.map(...)`: every record formatted in order, `none`
as soon as one callback throws. -/
def formatAll (db : Store) : List Performance → Option (List LowAttendanceEntry)
  | [] => some []
  | record :: rest =>
    match formatEntry db record with
    | none => none
    | some entry => (formatAll db rest).map (fun entries => entry :: entries)

/-- Source `getLowAttendanceStudents`. -/
def getLowAttendanceStudents (parsed : Option ℚ) (db : Store) : Response LowAttendanceListing :=
  let threshold := thresholdOrDefault parsed
  if threshold < 0 ∨ threshold > 100 then
    ⟨400, false, some "Threshold must be between 0 and 100", none⟩
  else
    let lowAttendanceRecords :=
      db.performances.filter (fun p => decide (p.attendancePercentage < threshold))
    match formatAll db lowAttendanceRecords with
    | none => ⟨500, false, some "Error fetching low attendance students", none⟩
    | some students => ⟨200, true, none, some ⟨threshold, students.length, students⟩⟩

/-- The `performance` member of the summary. The members `lowAttendance` and
`lastUpdated` are absent (`none`) from the payload sent for a student without record. -/
structure SummaryPerformance where
  marks : Marks
  averageMarks : ℚ
  attendancePercentage : ℚ
  performanceStatus : String
  lowAttendance : Option Bool
  lastUpdated : Option Nat
  hasData : Bool
  deriving DecidableEq

/-- The `data` member of the summary response. -/
structure Summary where
  student : StudentInfo
  performance : SummaryPerformance
  deriving DecidableEq

/-- Source `getPerformanceSummary`. The stored `marks` is an object, so
`performance.marks || {}` is `performance.marks`. -/
def getPerformanceSummary (studentId : IdParam) (db : Store) : Response Summary :=
  match studentId with
  | .malformed => ⟨500, false, some "Error fetching performance summary", none⟩
  | .oid studentId =>
    match Student.findById db studentId with
    | none => ⟨404, false, some "Student not found", none⟩
    | some student =>
      match Performance.findOne db studentId with
      | none =>
        ⟨200, true, none, some
          { student := ⟨student._id, student.name, student.rollNumber, student.studentClass,
              student.sectionName⟩,
            performance :=
              { marks := [],
                averageMarks := 0,
                attendancePercentage := 0,
                performanceStatus := "No data available",
                lowAttendance := none,
                lastUpdated := none,
                hasData := false } }⟩
      | some performance =>
        let marksObject := performance.marks
        let lowAttendance := isLowAttendanceDefault performance.attendancePercentage
        ⟨200, true, none, some
          { student := ⟨student._id, student.name, student.rollNumber, student.studentClass,
              student.sectionName⟩,
            performance :=
              { marks := marksObject,
                averageMarks := performance.averageMarks,
                attendancePercentage := performance.attendancePercentage,
                performanceStatus := performance.performanceStatus,
                lowAttendance := some lowAttendance,
                lastUpdated := some performance.lastUpdated,
                hasData := true } }⟩

/-! ## `controllers/studentController.js` -/

/-- Body of `POST /api/students`; a member is `none` when it is absent. -/
structure StudentRequest where
  name : Option String
  rollNumber : Option String
  studentClass : Option String
  sectionName : Option String
  deriving DecidableEq

/-- The test `!field` on a member that is absent or a string. -/
def falsy : Option String → Bool
  | none => true
  | some s => s == ""

/-- Call `Student.create(doc)`: the schema setters (`trim`, `uppercase`), the
`required` validators, the unique index on `rollNumber`, then the insert. -/
def Student.create (db : Store) (now : Nat) (name rollNumber studentClass sectionName : String) :
    Option (Student × Store) :=
  let student : Student :=
    { _id := db.nextId,
      name := trim name,
      rollNumber := trim rollNumber,
      studentClass := trim studentClass,
      sectionName := toUpperCase (trim sectionName),
      createdAt := now }
  if student.name == "" || student.rollNumber == "" || student.studentClass == "" ||
      student.sectionName == "" then none
  else if db.students.any (fun s => s.rollNumber == student.rollNumber) then none
  else some (student, { db with students := db.students ++ [student], nextId := db.nextId + 1 })

/-- Source `createStudent`. -/
def createStudent (req : StudentRequest) (now : Nat) (db : Store) : Response Student × Store :=
  if falsy req.name || falsy req.rollNumber || falsy req.studentClass || falsy req.sectionName then
    (⟨400, false,
      some "Please provide all required fields: name, rollNumber, class, section", none⟩, db)
  else
    match Student.findOne db (req.rollNumber.getD "") with
    | some _ => (⟨400, false, some "Student with this roll number already exists", none⟩, db)
    | none =>
      match Student.create db now (req.name.getD "") (req.rollNumber.getD "")
          (req.studentClass.getD "") (req.sectionName.getD "") with
      | some (student, db') => (⟨201, true, some "Student created successfully", some student⟩, db')
      | none => (⟨500, false, some "Error creating student", none⟩, db)

/-- Source `getStudentById`. -/
def getStudentById (id : IdParam) (db : Store) : Response Student :=
  match id with
  | .malformed => ⟨500, false, some "Error fetching student", none⟩
  | .oid id =>
    match Student.findById db id with
    | none => ⟨404, false, some "Student not found", none⟩
    | some student => ⟨200, true, none, some student⟩

/-! ## Sequences of requests -/

/-- A write request of the API. -/
inductive Request where
  | createStudent (req : StudentRequest)
  | addMarks (req : MarksRequest)
  | addAttendance (req : AttendanceRequest)
  deriving DecidableEq

/-- The store left by one request handled at clock value `now`. -/
def step (db : Store) (now : Nat) : Request → Store
  | .createStudent req => (createStudent req now db).2
  | .addMarks req => (addMarks req now db).2
  | .addAttendance req => (addAttendance req now db).2

/-- The store left by a sequence of requests handled one after the other, each
paired with the clock value at which it is handled. -/
def run (db : Store) : List (Nat × Request) → Store
  | [] => db
  | (now, req) :: rest => run (step db now req) rest



/-! ## Reference definitions -/

/-- Reference definition of the average, following the specification's words:
`0` for an empty mapping, otherwise `floor(100·(v1+…+vn)/n + 1/2) / 100`. -/
def averageSpec (marks : Marks) : ℚ :=
  if marks = [] then 0
  else (⌊100 * (marks.map Prod.snd).sum / (marks.length : ℚ) + 1 / 2⌋ : ℚ) / 100

/-- The order `Poor < Average < Good < Excellent` of the specification as a rank;
`none` on a string that is not one of the four labels. -/
def statusRank (status : String) : Option Nat :=
  if status = "Poor" then some 0
  else if status = "Average" then some 1
  else if status = "Good" then some 2
  else if status = "Excellent" then some 3
  else none

/-- Consistency of a store: every performance record passes the schema validators
and refers to a stored student, and no two records refer to the same student. -/
def Store.WellFormed (db : Store) : Prop :=
  (∀ r ∈ db.performances,
    r.validate = true ∧ (Student.findById db r.studentId).isSome = true) ∧
  (db.performances.map (fun r => r.studentId)).Nodup

/-- The stored data of a performance record: every field except `lastUpdated`. -/
def storedData (r : Performance) : ObjectId × Marks × ℚ × ℚ × String :=
  (r.studentId, r.marks, r.attendancePercentage, r.averageMarks, r.performanceStatus)

/-! ## Sample data -/

/-- A well-formed creation request. -/
def aliceRequest : StudentRequest := ⟨some "Alice", some "R1", some "10th", some "a"⟩

/-- The store holding the student of `aliceRequest` and no performance record. -/
def aliceStore : Store := ⟨[⟨0, "Alice", "R1", "10th", "A", 1⟩], [], 1⟩

/-- The record of student `0` after the submission `{math: 80}` at clock value `2`. -/
def mathRecord : Performance := ⟨0, [("math", 80)], 0, 80, "Good", 2⟩

/-- The store holding the student of `aliceRequest` and `mathRecord`. -/
def mathStore : Store := ⟨[⟨0, "Alice", "R1", "10th", "A", 1⟩], [mathRecord], 1⟩

/-- Submission `{math: 80}` for student `0`. -/
def mathRequest : MarksRequest := ⟨.oid 0, some [("math", .num 80)]⟩

/-- Submission `{science: 90}` for student `0`. -/
def scienceRequest : MarksRequest := ⟨.oid 0, some [("science", .num 90)]⟩

/-- The store holding the student of `aliceRequest` and a record with attendance 50. -/
def lowStore : Store :=
  ⟨[⟨0, "Alice", "R1", "10th", "A", 1⟩], [⟨0, [], 50, 0, "Poor", 2⟩], 1⟩

/-- Submission `{math: 95, science: 98, english: 92, history: 94}` for student `0`. -/
def excellentRequest : MarksRequest :=
  ⟨.oid 0, some [("math", .num 95), ("science", .num 98), ("english", .num 92),
    ("history", .num 94)]⟩

/-- Five marks that are doubles (multiples of 1/8) with mean exactly 67.225. -/
def eighthsMarks : Marks :=
  [("math", 123 / 8), ("science", 95), ("english", 85 / 2), ("history", 369 / 4), ("art", 91)]

/-- A student is created, then `{math: 80}` and `{science: 90}` are submitted for it. -/
def twoSubmissions : List (Nat × Request) :=
  [(1, .createStudent aliceRequest), (2, .addMarks mathRequest), (3, .addMarks scienceRequest)]

/-! ## The aggregation utilities -/

theorem foldl_add_eq_sum (l : List ℚ) (a : ℚ) :
    l.foldl (fun total mark => total + mark) a = a + l.sum := by
  induction l generalizing a with
  | nil => simp
  | cons x xs ih => simp [List.foldl_cons, ih, add_assoc]

theorem calculateAverage_cons (e : String × ℚ) (rest : Marks) :
    calculateAverage (e :: rest) =
      (Math.round ((e.2 + (rest.map Prod.snd).sum) / ((rest.length : ℚ) + 1) * 100) : ℚ) / 100 := by
  simp [calculateAverage, foldl_add_eq_sum]

theorem calculateAverage_eq_averageSpec (marks : Marks) :
    calculateAverage marks = averageSpec marks := by
  cases marks with
  | nil => simp [calculateAverage, averageSpec]
  | cons e rest =>
    rw [calculateAverage_cons]
    simp only [averageSpec, Math.round, List.map_cons, List.sum_cons, List.length_cons]
    simp only [reduceCtorEq, if_false]
    congr 3
    push_cast
    ring

theorem classify_cases (x : ℚ) :
    (classifyPerformance x = "Excellent" ↔ x ≥ 90) ∧
    (classifyPerformance x = "Good" ↔ 75 ≤ x ∧ x < 90) ∧
    (classifyPerformance x = "Average" ↔ 60 ≤ x ∧ x < 75) ∧
    (classifyPerformance x = "Poor" ↔ x < 60) := by
  unfold classifyPerformance
  split_ifs with h1 h2 h3 <;>
    refine ⟨?_, ?_, ?_, ?_⟩ <;> constructor <;> intro h <;>
    first
      | rfl
      | exact absurd h (by decide)
      | linarith
      | linarith [h.1, h.2]
      | exact ⟨by linarith, by linarith⟩

theorem classify_examples :
    classifyPerformance (5999 / 100) = "Poor" ∧ classifyPerformance 60 = "Average" ∧
    classifyPerformance (7499 / 100) = "Average" ∧ classifyPerformance 75 = "Good" ∧
    classifyPerformance (8999 / 100) = "Good" ∧ classifyPerformance 90 = "Excellent" := by
  refine ⟨?_, ?_, ?_, ?_, ?_, ?_⟩ <;> (unfold classifyPerformance; norm_num)

theorem classify_mem_enum (x : ℚ) :
    classifyPerformance x ∈ ["Excellent", "Good", "Average", "Poor"] := by
  unfold classifyPerformance
  split_ifs <;> simp

theorem calculateAverage_bounds (marks : Marks)
    (h : ∀ e ∈ marks, 0 ≤ e.2 ∧ e.2 ≤ 100) :
    0 ≤ calculateAverage marks ∧ calculateAverage marks ≤ 100 := by
  cases marks with
  | nil => simp [calculateAverage]
  | cons e rest =>
    have hlen : (0 : ℚ) < (((e :: rest).length : ℕ) : ℚ) := by
      simp only [List.length_cons]; positivity
    have hnn : 0 ≤ ((e :: rest).map Prod.snd).sum := by
      apply List.sum_nonneg
      intro x hx
      obtain ⟨a, ha, rfl⟩ := List.mem_map.mp hx
      exact (h a ha).1
    have hle : ((e :: rest).map Prod.snd).sum ≤ ((e :: rest).length : ℚ) * 100 := by
      have := List.sum_le_card_nsmul ((e :: rest).map Prod.snd) (100 : ℚ) (by
        intro x hx
        obtain ⟨a, ha, rfl⟩ := List.mem_map.mp hx
        exact (h a ha).2)
      simpa [nsmul_eq_mul] using this
    rw [calculateAverage_eq_averageSpec]
    simp only [averageSpec, reduceCtorEq, if_false]
    set s := ((e :: rest).map Prod.snd).sum with hs
    set n : ℚ := ((e :: rest).length : ℚ) with hn
    have h1 : 0 ≤ 100 * s / n := by positivity
    have h2 : 100 * s / n ≤ 10000 := by
      rw [div_le_iff₀ hlen]; nlinarith
    have f0 : (0 : ℤ) ≤ ⌊100 * s / n + 1 / 2⌋ := Int.floor_nonneg.mpr (by linarith)
    have f1 : ⌊100 * s / n + 1 / 2⌋ < (10001 : ℤ) := Int.floor_lt.mpr (by push_cast; linarith)
    have f0q : (0 : ℚ) ≤ (⌊100 * s / n + 1 / 2⌋ : ℚ) := by exact_mod_cast f0
    have f1q : (⌊100 * s / n + 1 / 2⌋ : ℚ) ≤ 10000 := by
      have : ⌊100 * s / n + 1 / 2⌋ ≤ (10000 : ℤ) := by omega
      exact_mod_cast this
    constructor
    · positivity
    · rw [div_le_iff₀ (by norm_num)]; linarith


/-! ## Validation of a marks object -/

theorem firstInvalidSubject_eq_none {marks : List (String × JsVal)} :
    firstInvalidSubject marks = none ↔ ∀ e ∈ marks, invalidMark e.2 = false := by
  simp [firstInvalidSubject, List.find?_eq_none]

theorem firstInvalidSubject_of_mem {marks : List (String × JsVal)} {e : String × JsVal}
    (he : e ∈ marks) (hi : invalidMark e.2 = true) :
    ∃ subject, firstInvalidSubject marks = some subject := by
  cases h : firstInvalidSubject marks with
  | some subject => exact ⟨subject, rfl⟩
  | none =>
    have := firstInvalidSubject_eq_none.mp h e he
    rw [hi] at this
    exact absurd this (by decide)

theorem invalidMark_eq_false {v : JsVal} (h : invalidMark v = false) :
    ∃ q : ℚ, v = JsVal.num q ∧ 0 ≤ q ∧ q ≤ 100 := by
  cases v with
  | num q =>
    simp only [invalidMark, Bool.or_eq_false_iff, decide_eq_false_iff_not, not_lt] at h
    exact ⟨q, rfl, h.1, h.2⟩
  | _ => simp [invalidMark] at h

theorem numericMarks_roundtrip {marks : List (String × JsVal)}
    (h : ∀ e ∈ marks, invalidMark e.2 = false) :
    (numericMarks marks).map (fun e => (e.1, JsVal.num e.2)) = marks := by
  induction marks with
  | nil => rfl
  | cons e rest ih =>
    obtain ⟨subject, v⟩ := e
    obtain ⟨q, rfl, -, -⟩ := invalidMark_eq_false (h (subject, v) (List.mem_cons_self _ _))
    simp only [numericMarks, List.map_cons]
    rw [ih (fun e he => h e (List.mem_cons_of_mem _ he))]

theorem numericMarks_bounds {marks : List (String × JsVal)}
    (h : ∀ e ∈ marks, invalidMark e.2 = false) :
    ∀ e ∈ numericMarks marks, 0 ≤ e.2 ∧ e.2 ≤ 100 := by
  intro e he
  have hmem : (e.1, JsVal.num e.2) ∈ marks := by
    rw [← numericMarks_roundtrip h]
    exact List.mem_map.mpr ⟨e, he, rfl⟩
  obtain ⟨q, hq, h0, h1⟩ := invalidMark_eq_false (h _ hmem)
  simp only [JsVal.num.injEq] at hq
  subst hq
  exact ⟨h0, h1⟩

theorem mem_numericMarks {marks : List (String × JsVal)} {k : String} {q : ℚ} :
    (k, q) ∈ numericMarks marks ↔ (k, JsVal.num q) ∈ marks := by
  induction marks with
  | nil => simp [numericMarks]
  | cons e rest ih =>
    obtain ⟨subject, v⟩ := e
    cases v <;> simp [numericMarks, ih]

theorem keys_numericMarks {marks : List (String × JsVal)}
    (h : ∀ e ∈ marks, invalidMark e.2 = false) :
    (numericMarks marks).map Prod.fst = marks.map Prod.fst := by
  conv_rhs => rw [← numericMarks_roundtrip h]
  simp [List.map_map, Function.comp_def]

/-! ## Assignment to a key and object spread -/

theorem lookup_setKey_self (m : Marks) (k : String) (v : ℚ) :
    List.lookup k (setKey m k v) = some v := by
  induction m with
  | nil => simp [setKey, List.lookup]
  | cons e rest ih =>
    obtain ⟨k1, v1⟩ := e
    by_cases hk : k1 = k
    · simp [setKey, hk, List.lookup]
    · have : (k == k1) = false := by simpa using fun h => hk h.symm
      simp [setKey, hk, List.lookup, this, ih]

theorem lookup_setKey_ne (m : Marks) {k j : String} (v : ℚ) (h : j ≠ k) :
    List.lookup j (setKey m k v) = List.lookup j m := by
  induction m with
  | nil =>
    have : (j == k) = false := by simpa using h
    simp [setKey, List.lookup, this]
  | cons e rest ih =>
    obtain ⟨k1, v1⟩ := e
    by_cases hk : k1 = k
    · subst hk
      have : (j == k1) = false := by simpa using h
      simp [setKey, List.lookup, this]
    · by_cases hj : j = k1
      · simp [setKey, hk, List.lookup, hj]
      · have : (j == k1) = false := by simpa using hj
        simp [setKey, hk, List.lookup, this, ih]

theorem keys_setKey (m : Marks) (k j : String) (v : ℚ) :
    j ∈ (setKey m k v).map Prod.fst ↔ j = k ∨ j ∈ m.map Prod.fst := by
  induction m with
  | nil => simp [setKey]
  | cons e rest ih =>
    obtain ⟨k1, v1⟩ := e
    by_cases hk : k1 = k
    · subst hk; simp [setKey]
    · simp only [setKey, hk, if_false, List.map_cons, List.mem_cons, ih]
      tauto

theorem spread_cons (base : Marks) (e : String × ℚ) (over : Marks) :
    spread base (e :: over) = spread (setKey base e.1 e.2) over := rfl

theorem lookup_spread_of_not_mem (base over : Marks) {j : String}
    (h : j ∉ over.map Prod.fst) :
    List.lookup j (spread base over) = List.lookup j base := by
  induction over generalizing base with
  | nil => rfl
  | cons e rest ih =>
    simp only [List.map_cons, List.mem_cons, not_or] at h
    rw [spread_cons, ih _ h.2, lookup_setKey_ne _ _ h.1]

theorem lookup_spread_of_mem (base over : Marks) {k : String} {v : ℚ}
    (hnd : (over.map Prod.fst).Nodup) (h : (k, v) ∈ over) :
    List.lookup k (spread base over) = some v := by
  induction over generalizing base with
  | nil => simp at h
  | cons e rest ih =>
    simp only [List.map_cons, List.nodup_cons] at hnd
    rw [spread_cons]
    rcases List.mem_cons.mp h with heq | hmem
    · subst heq
      rw [lookup_spread_of_not_mem _ _ hnd.1, lookup_setKey_self]
    · exact ih _ hnd.2 hmem

theorem keys_spread (base over : Marks) (j : String) :
    j ∈ (spread base over).map Prod.fst ↔ j ∈ base.map Prod.fst ∨ j ∈ over.map Prod.fst := by
  induction over generalizing base with
  | nil => simp [spread]
  | cons e rest ih =>
    rw [spread_cons, ih, keys_setKey]
    simp only [List.map_cons, List.mem_cons]
    tauto


/-! ## The performance collection -/

theorem find?_replaceFirst_hit {α : Type} (hit : α → Bool) (y : α) (l : List α)
    (hy : hit y = true) (h : (l.find? hit).isSome = true) :
    (replaceFirst hit y l).find? hit = some y := by
  induction l with
  | nil => simp at h
  | cons x xs ih =>
    by_cases hx : hit x = true
    · simp [replaceFirst, hx, hy]
    · have hx' : hit x = false := by simpa using hx
      simp only [List.find?_cons, hx'] at h
      simp [replaceFirst, hx', ih h]

theorem find?_replaceFirst_other {α : Type} (hit other : α → Bool) (y : α) (l : List α)
    (hdisj : ∀ x, hit x = true → other x = false) (hy : other y = false) :
    (replaceFirst hit y l).find? other = l.find? other := by
  induction l with
  | nil => rfl
  | cons x xs ih =>
    by_cases hx : hit x = true
    · simp [replaceFirst, hx, hy, hdisj x hx]
    · have hx' : hit x = false := by simpa using hx
      simp [replaceFirst, hx', List.find?_cons, ih]

theorem mem_replaceFirst {α : Type} {hit : α → Bool} {y x : α} {l : List α}
    (h : x ∈ replaceFirst hit y l) : x = y ∨ x ∈ l := by
  induction l with
  | nil => simp [replaceFirst] at h
  | cons a as ih =>
    by_cases ha : hit a = true
    · simp only [replaceFirst, ha, if_true, List.mem_cons] at h
      rcases h with h | h
      · exact Or.inl h
      · exact Or.inr (List.mem_cons_of_mem _ h)
    · have ha' : hit a = false := by simpa using ha
      simp only [replaceFirst, ha', Bool.false_eq_true, if_false, List.mem_cons] at h
      rcases h with h | h
      · exact Or.inr (List.mem_cons.mpr (Or.inl h))
      · rcases ih h with h | h
        · exact Or.inl h
        · exact Or.inr (List.mem_cons_of_mem _ h)

theorem Performance.findOne_studentId {db : Store} {id : ObjectId} {p : Performance}
    (h : Performance.findOne db id = some p) : p.studentId = id := by
  have := List.find?_some h
  simpa using this

theorem Performance.findOne_mem {db : Store} {id : ObjectId} {p : Performance}
    (h : Performance.findOne db id = some p) : p ∈ db.performances :=
  List.mem_of_find?_eq_some h

/-! ## Shape of the outcome of `addMarks` -/

theorem addMarks_inv {req : MarksRequest} {now : Nat} {db : Store}
    (h : (addMarks req now db).1.status = 200) :
    ∃ id marks, req.studentId = .oid id ∧ req.marks = some marks ∧
      (Student.findById db id).isSome = true ∧ firstInvalidSubject marks = none := by
  obtain ⟨sid, m⟩ := req
  cases m with
  | none => simp [addMarks] at h
  | some marks =>
    cases sid with
    | malformed => simp [addMarks] at h
    | oid id =>
      cases hs : Student.findById db id with
      | none => simp [addMarks, hs] at h
      | some s =>
        cases hv : firstInvalidSubject marks with
        | some subject => simp [addMarks, hs, hv] at h
        | none => exact ⟨id, marks, rfl, rfl, by simp [hs], hv⟩

theorem addMarks_existing {req : MarksRequest} {now : Nat} {db : Store} {id : ObjectId}
    {marks : List (String × JsVal)} {p : Performance}
    (hid : req.studentId = .oid id) (hm : req.marks = some marks)
    (hs : (Student.findById db id).isSome = true) (hv : firstInvalidSubject marks = none)
    (hp : Performance.findOne db id = some p) :
    addMarks req now db =
      if Performance.validate { p with
          marks := spread p.marks (numericMarks marks),
          averageMarks := calculateAverage (numericMarks marks),
          performanceStatus := classifyPerformance (calculateAverage (numericMarks marks)),
          lastUpdated := now } = true then
        (⟨200, true, some "Marks updated successfully", some { p with
          marks := spread p.marks (numericMarks marks),
          averageMarks := calculateAverage (numericMarks marks),
          performanceStatus := classifyPerformance (calculateAverage (numericMarks marks)),
          lastUpdated := now }⟩,
         { db with performances := replaceFirst (fun r => r.studentId == id) { p with
          marks := spread p.marks (numericMarks marks),
          averageMarks := calculateAverage (numericMarks marks),
          performanceStatus := classifyPerformance (calculateAverage (numericMarks marks)),
          lastUpdated := now } db.performances })
      else (⟨500, false, some "Error updating marks", none⟩, db) := by
  obtain ⟨sid, m⟩ := req
  simp only at hid hm
  subst hid hm
  obtain ⟨s, hs⟩ := Option.isSome_iff_exists.mp hs
  have hpid := Performance.findOne_studentId hp
  simp only [addMarks, hs, hv, hp, Performance.save, hpid]
  split_ifs <;> rfl

theorem addMarks_new {req : MarksRequest} {now : Nat} {db : Store} {id : ObjectId}
    {marks : List (String × JsVal)}
    (hid : req.studentId = .oid id) (hm : req.marks = some marks)
    (hs : (Student.findById db id).isSome = true) (hv : firstInvalidSubject marks = none)
    (hp : Performance.findOne db id = none) :
    addMarks req now db =
      (⟨200, true, some "Marks updated successfully", some
        { studentId := id, marks := numericMarks marks, attendancePercentage := 0,
          averageMarks := calculateAverage (numericMarks marks),
          performanceStatus := classifyPerformance (calculateAverage (numericMarks marks)),
          lastUpdated := now }⟩,
       { db with performances := db.performances ++ [
        { studentId := id, marks := numericMarks marks, attendancePercentage := 0,
          averageMarks := calculateAverage (numericMarks marks),
          performanceStatus := classifyPerformance (calculateAverage (numericMarks marks)),
          lastUpdated := now }] }) := by
  obtain ⟨sid, m⟩ := req
  simp only at hid hm
  subst hid hm
  obtain ⟨s, hs⟩ := Option.isSome_iff_exists.mp hs
  have hb := calculateAverage_bounds _ (numericMarks_bounds (firstInvalidSubject_eq_none.mp hv))
  have he := classify_mem_enum (calculateAverage (numericMarks marks))
  have hval : Performance.validate
      { studentId := id, marks := numericMarks marks, attendancePercentage := 0,
        averageMarks := calculateAverage (numericMarks marks),
        performanceStatus := classifyPerformance (calculateAverage (numericMarks marks)),
        lastUpdated := now } = true := by
    simp only [Performance.validate, Bool.and_eq_true, decide_eq_true_eq]
    exact ⟨⟨⟨⟨le_refl _, by norm_num⟩, hb.1⟩, hb.2⟩, he⟩
  simp only [addMarks, hs, hv, hp, Performance.create, hval, Option.isNone_none, Bool.and_self,
    if_true]


theorem addMarks_store (req : MarksRequest) (now : Nat) (db : Store) :
    (addMarks req now db).2 = db ∨
    (∃ id marks p, req.studentId = .oid id ∧ req.marks = some marks ∧
      Performance.findOne db id = some p ∧
      (addMarks req now db).2 = { db with
        performances := replaceFirst (fun r => r.studentId == id) { p with
          marks := spread p.marks (numericMarks marks),
          averageMarks := calculateAverage (numericMarks marks),
          performanceStatus := classifyPerformance (calculateAverage (numericMarks marks)),
          lastUpdated := now } db.performances }) ∨
    (∃ id marks, req.studentId = .oid id ∧ req.marks = some marks ∧
      Performance.findOne db id = none ∧
      (addMarks req now db).2 = { db with performances := db.performances ++ [
        { studentId := id, marks := numericMarks marks, attendancePercentage := 0,
          averageMarks := calculateAverage (numericMarks marks),
          performanceStatus := classifyPerformance (calculateAverage (numericMarks marks)),
          lastUpdated := now }] }) := by
  obtain ⟨sid, m⟩ := req
  cases m with
  | none => left; simp [addMarks]
  | some marks =>
    cases sid with
    | malformed => left; simp [addMarks]
    | oid id =>
      cases hs : Student.findById db id with
      | none => left; simp [addMarks, hs]
      | some s =>
        cases hv : firstInvalidSubject marks with
        | some subject => left; simp [addMarks, hs, hv]
        | none =>
          have hs' : (Student.findById db id).isSome = true := by simp [hs]
          cases hp : Performance.findOne db id with
          | some p =>
            rw [addMarks_existing rfl rfl hs' hv hp]
            split_ifs
            · right; left; exact ⟨id, marks, p, rfl, rfl, hp, rfl⟩
            · left; rfl
          | none =>
            rw [addMarks_new rfl rfl hs' hv hp]
            right; right; exact ⟨id, marks, rfl, rfl, hp, rfl⟩

/-! ## Shape of the outcome of `addAttendance` -/

theorem addAttendance_inv {req : AttendanceRequest} {now : Nat} {db : Store}
    (h : (addAttendance req now db).1.status = 200) :
    ∃ id a, req.studentId = .oid id ∧ req.attendancePercentage = .num a ∧ 0 ≤ a ∧ a ≤ 100 ∧
      (Student.findById db id).isSome = true := by
  obtain ⟨sid, v⟩ := req
  cases v with
  | num a =>
    by_cases hr : a < 0 ∨ a > 100
    · simp [addAttendance, hr] at h
    · cases sid with
      | malformed => simp [addAttendance, hr] at h
      | oid id =>
        cases hs : Student.findById db id with
        | none => simp [addAttendance, hr, hs] at h
        | some s =>
          push_neg at hr
          exact ⟨id, a, rfl, rfl, hr.1, hr.2, by simp [hs]⟩
  | _ => simp [addAttendance] at h

theorem addAttendance_existing {req : AttendanceRequest} {now : Nat} {db : Store}
    {id : ObjectId} {a : ℚ} {p : Performance}
    (hid : req.studentId = .oid id) (ha : req.attendancePercentage = .num a)
    (h0 : 0 ≤ a) (h1 : a ≤ 100)
    (hs : (Student.findById db id).isSome = true)
    (hp : Performance.findOne db id = some p) :
    addAttendance req now db =
      if Performance.validate { p with attendancePercentage := a, lastUpdated := now } = true then
        (⟨200, true, some "Attendance updated successfully",
          some { p with attendancePercentage := a, lastUpdated := now }⟩,
         { db with
            performances := replaceFirst (fun r => r.studentId == id)
              { p with attendancePercentage := a, lastUpdated := now } db.performances })
      else (⟨500, false, some "Error updating attendance", none⟩, db) := by
  obtain ⟨sid, v⟩ := req
  simp only at hid ha
  subst hid ha
  obtain ⟨s, hs⟩ := Option.isSome_iff_exists.mp hs
  have hpid := Performance.findOne_studentId hp
  have hr : ¬ (a < 0 ∨ a > 100) := by push_neg; exact ⟨h0, h1⟩
  simp only [addAttendance, hr, if_false, hs, hp, Performance.save, hpid]
  split_ifs <;> rfl

theorem addAttendance_new {req : AttendanceRequest} {now : Nat} {db : Store}
    {id : ObjectId} {a : ℚ}
    (hid : req.studentId = .oid id) (ha : req.attendancePercentage = .num a)
    (h0 : 0 ≤ a) (h1 : a ≤ 100)
    (hs : (Student.findById db id).isSome = true)
    (hp : Performance.findOne db id = none) :
    addAttendance req now db =
      (⟨200, true, some "Attendance updated successfully", some
        { studentId := id, marks := [], attendancePercentage := a, averageMarks := 0,
          performanceStatus := "Poor", lastUpdated := now }⟩,
       { db with performances := db.performances ++ [
        { studentId := id, marks := [], attendancePercentage := a, averageMarks := 0,
          performanceStatus := "Poor", lastUpdated := now }] }) := by
  obtain ⟨sid, v⟩ := req
  simp only at hid ha
  subst hid ha
  obtain ⟨s, hs⟩ := Option.isSome_iff_exists.mp hs
  have hr : ¬ (a < 0 ∨ a > 100) := by push_neg; exact ⟨h0, h1⟩
  have hval : Performance.validate
      { studentId := id, marks := [], attendancePercentage := a, averageMarks := 0,
        performanceStatus := "Poor", lastUpdated := now } = true := by
    simp only [Performance.validate, Bool.and_eq_true, decide_eq_true_eq]
    exact ⟨⟨⟨⟨h0, h1⟩, le_refl _⟩, by norm_num⟩, by simp⟩
  simp only [addAttendance, hr, if_false, hs, hp, Performance.create, hval, Option.isNone_none,
    Bool.and_self, if_true]

theorem addAttendance_store (req : AttendanceRequest) (now : Nat) (db : Store) :
    (addAttendance req now db).2 = db ∨
    (∃ id a p, req.studentId = .oid id ∧ req.attendancePercentage = .num a ∧
      Performance.findOne db id = some p ∧
      (addAttendance req now db).2 = { db with
        performances := replaceFirst (fun r => r.studentId == id)
          { p with attendancePercentage := a, lastUpdated := now } db.performances }) ∨
    (∃ id a, req.studentId = .oid id ∧ req.attendancePercentage = .num a ∧
      Performance.findOne db id = none ∧
      (addAttendance req now db).2 = { db with performances := db.performances ++ [
        { studentId := id, marks := [], attendancePercentage := a, averageMarks := 0,
          performanceStatus := "Poor", lastUpdated := now }] }) := by
  obtain ⟨sid, v⟩ := req
  cases v with
  | num a =>
    by_cases hr : a < 0 ∨ a > 100
    · left; simp [addAttendance, hr]
    · cases sid with
      | malformed => left; simp [addAttendance, hr]
      | oid id =>
        cases hs : Student.findById db id with
        | none => left; simp [addAttendance, hr, hs]
        | some s =>
          have hs' : (Student.findById db id).isSome = true := by simp [hs]
          push_neg at hr
          cases hp : Performance.findOne db id with
          | some p =>
            rw [addAttendance_existing rfl rfl hr.1 hr.2 hs' hp]
            split_ifs
            · right; left; exact ⟨id, a, p, rfl, rfl, hp, rfl⟩
            · left; rfl
          | none =>
            rw [addAttendance_new rfl rfl hr.1 hr.2 hs' hp]
            right; right; exact ⟨id, a, rfl, rfl, hp, rfl⟩
  | _ => left; simp [addAttendance]

theorem createStudent_performances (req : StudentRequest) (now : Nat) (db : Store) :
    (createStudent req now db).2.performances = db.performances := by
  unfold createStudent
  split_ifs
  · rfl
  · split
    · rfl
    · split
      · rename_i student db' hc
        unfold Student.create at hc
        simp only at hc
        split_ifs at hc
        simp only [Option.some.injEq, Prod.mk.injEq] at hc
        rw [← hc.2]
      · rfl


/-! ## Evaluation of the sample requests -/

theorem createStudent_alice : createStudent aliceRequest 1 Store.empty =
    (⟨201, true, some "Student created successfully", some ⟨0, "Alice", "R1", "10th", "A", 1⟩⟩,
      aliceStore) := by
  rfl

theorem addMarks_mathRequest : addMarks mathRequest 2 aliceStore =
    (⟨200, true, some "Marks updated successfully", some mathRecord⟩, mathStore) := by
  simp [addMarks, mathRequest, aliceStore, mathStore, mathRecord, Student.findById,
    firstInvalidSubject, invalidMark, numericMarks, Performance.findOne, Performance.create,
    Performance.validate, calculateAverage, classifyPerformance, Math.round]
  norm_num

theorem addMarks_scienceRequest : addMarks scienceRequest 3 mathStore =
    (⟨200, true, some "Marks updated successfully",
        some ⟨0, [("math", 80), ("science", 90)], 0, 90, "Excellent", 3⟩⟩,
      ⟨[⟨0, "Alice", "R1", "10th", "A", 1⟩],
        [⟨0, [("math", 80), ("science", 90)], 0, 90, "Excellent", 3⟩], 1⟩) := by
  simp [addMarks, scienceRequest, mathStore, mathRecord, Student.findById,
    firstInvalidSubject, invalidMark, numericMarks, Performance.findOne, Performance.save,
    Performance.validate, calculateAverage, classifyPerformance, Math.round, spread]
  norm_num
  constructor <;> rfl

theorem run_twoSubmissions : run Store.empty twoSubmissions =
    ⟨[⟨0, "Alice", "R1", "10th", "A", 1⟩],
      [⟨0, [("math", 80), ("science", 90)], 0, 90, "Excellent", 3⟩], 1⟩ := by
  simp [twoSubmissions, run, step, createStudent_alice, addMarks_mathRequest,
    addMarks_scienceRequest]


/-! ## Marks submissions -/

/-- C1, the code at the submissions `{math: 80}` then `{science: 90}` for one student:
the second submission responds 200 and the record ends with both subjects and with
`averageMarks = 90`, the average of the second payload alone, while the average of its
merged marks is `85`. -/
theorem addMarks_average_of_payload_only :
    ∃ p, Performance.findOne (run Store.empty twoSubmissions) 0 = some p ∧
      addMarks scienceRequest 3 mathStore =
        (⟨200, true, some "Marks updated successfully", some p⟩,
          run Store.empty twoSubmissions) ∧
      p.marks = [("math", 80), ("science", 90)] ∧
      p.averageMarks = 90 ∧
      p.averageMarks = calculateAverage [("science", 90)] ∧
      calculateAverage p.marks = 85 := by
  refine ⟨⟨0, [("math", 80), ("science", 90)], 0, 90, "Excellent", 3⟩, ?_, ?_, rfl, rfl, ?_, ?_⟩
  · rw [run_twoSubmissions]; rfl
  · rw [run_twoSubmissions, addMarks_scienceRequest]
  · simp [calculateAverage, Math.round]
    norm_num
  · simp [calculateAverage, Math.round]
    norm_num

/-- C2, a reachable state that breaks the invariant: a sequence of requests from the
empty store leaves a record with a non-empty marks map whose `averageMarks` differs
from the rounded mean of that map. -/
theorem averageMarks_invariant_broken :
    ∃ reqs : List (Nat × Request), ∃ p ∈ (run Store.empty reqs).performances,
      p.marks ≠ [] ∧ p.averageMarks ≠ averageSpec p.marks := by
  refine ⟨twoSubmissions, ⟨0, [("math", 80), ("science", 90)], 0, 90, "Excellent", 3⟩, ?_, ?_, ?_⟩
  · rw [run_twoSubmissions]; simp
  · simp
  · rw [← calculateAverage_eq_averageSpec]
    simp [calculateAverage, Math.round]
    norm_num

/-- C3: when `addMarks` succeeds on a student that has a record with marks `M`, the
record found afterwards (also the one returned) has key set `keys(M) ∪ keys(P)`, maps
every key of the payload `P` to the payload's value, and maps every key absent from
`P` as `M` did. -/
theorem addMarks_upserts_per_subject (req : MarksRequest) (now : Nat) (db : Store)
    (id : ObjectId) (marks : List (String × JsVal)) (p : Performance)
    (hid : req.studentId = .oid id) (hm : req.marks = some marks)
    (hnd : (marks.map Prod.fst).Nodup)
    (hp : Performance.findOne db id = some p)
    (hok : (addMarks req now db).1.status = 200) :
    ∃ q, Performance.findOne (addMarks req now db).2 id = some q ∧
      (addMarks req now db).1.data = some q ∧
      (∀ k, k ∈ q.marks.map Prod.fst ↔ k ∈ p.marks.map Prod.fst ∨ k ∈ marks.map Prod.fst) ∧
      (∀ k v, (k, v) ∈ marks → ∃ x : ℚ, v = JsVal.num x ∧ List.lookup k q.marks = some x) ∧
      (∀ k, k ∉ marks.map Prod.fst → List.lookup k q.marks = List.lookup k p.marks) := by
  obtain ⟨id', marks', hid', hm', hs, hv⟩ := addMarks_inv hok
  rw [hid] at hid'
  rw [hm] at hm'
  cases hid'
  cases hm'
  have hvalid := firstInvalidSubject_eq_none.mp hv
  have hkeys := keys_numericMarks hvalid
  rw [addMarks_existing hid hm hs hv hp] at hok ⊢
  split_ifs at hok ⊢ with hval
  · refine ⟨_, ?_, rfl, ?_, ?_, ?_⟩
    · exact find?_replaceFirst_hit _ _ _ (by simpa using Performance.findOne_studentId hp)
        (by unfold Performance.findOne at hp; simp [hp])
    · intro k
      simp only [keys_spread, hkeys]
    · intro k v hkv
      obtain ⟨x, hx, -, -⟩ := invalidMark_eq_false (hvalid (k, v) hkv)
      simp only at hx
      subst hx
      refine ⟨x, rfl, ?_⟩
      exact lookup_spread_of_mem _ _ (by rw [hkeys]; exact hnd) (mem_numericMarks.mpr hkv)
    · intro k hk
      exact lookup_spread_of_not_mem _ _ (by rw [hkeys]; exact hk)
  · simp at hok

/-- C3 at a concrete input: `{science: 90}` submitted over the stored `{math: 80}`. -/
theorem addMarks_upserts_per_subject_witness :
    (addMarks scienceRequest 3 mathStore).1.status = 200 ∧
    ∃ q, Performance.findOne (addMarks scienceRequest 3 mathStore).2 0 = some q ∧
      (addMarks scienceRequest 3 mathStore).1.data = some q ∧
      (∀ k, k ∈ q.marks.map Prod.fst ↔
        k ∈ mathRecord.marks.map Prod.fst ∨
          k ∈ [("science", JsVal.num 90)].map Prod.fst) ∧
      (∀ k v, (k, v) ∈ [("science", JsVal.num 90)] →
        ∃ x : ℚ, v = JsVal.num x ∧ List.lookup k q.marks = some x) ∧
      (∀ k, k ∉ [("science", JsVal.num 90)].map Prod.fst →
        List.lookup k q.marks = List.lookup k mathRecord.marks) :=
  ⟨by rw [addMarks_scienceRequest],
   addMarks_upserts_per_subject scienceRequest 3 mathStore 0 [("science", .num 90)] mathRecord
    rfl rfl (by simp) rfl (by rw [addMarks_scienceRequest])⟩

/-- C4: for an existing student and a marks object holding at least one value that
is not a number in `[0, 100]`, `addMarks` responds 400 without data and leaves the
store as it was, whatever the other entries are. -/
theorem addMarks_rejects_invalid_payload (req : MarksRequest) (now : Nat) (db : Store)
    (id : ObjectId) (marks : List (String × JsVal)) (e : String × JsVal)
    (hid : req.studentId = .oid id) (hm : req.marks = some marks)
    (hs : (Student.findById db id).isSome = true)
    (he : e ∈ marks)
    (hbad : ∀ x : ℚ, e.2 = JsVal.num x → x < 0 ∨ 100 < x) :
    (addMarks req now db).1.status = 400 ∧ (addMarks req now db).1.success = false ∧
      (addMarks req now db).1.data = none ∧ (addMarks req now db).2 = db := by
  have hinv : invalidMark e.2 = true := by
    cases hq : e.2 with
    | num x =>
      rcases hbad x hq with h | h
      · simp [invalidMark, h]
      · simp [invalidMark, h]
    | _ => rfl
  obtain ⟨subject, hsub⟩ := firstInvalidSubject_of_mem he hinv
  obtain ⟨s, hs⟩ := Option.isSome_iff_exists.mp hs
  obtain ⟨sid, m⟩ := req
  simp only at hid hm
  subst hid hm
  simp [addMarks, hs, hsub]

/-- C4 at a concrete input: `{math: 90, science: 101}` for a student holding a record. -/
theorem addMarks_rejects_invalid_payload_witness :
    (Student.findById mathStore 0).isSome = true ∧
    (("science", JsVal.num 101) ∈ [("math", JsVal.num 90), ("science", JsVal.num 101)]) ∧
    (addMarks ⟨.oid 0, some [("math", .num 90), ("science", .num 101)]⟩ 5 mathStore).1.status
      = 400 ∧
    (addMarks ⟨.oid 0, some [("math", .num 90), ("science", .num 101)]⟩ 5 mathStore).1.success
      = false ∧
    (addMarks ⟨.oid 0, some [("math", .num 90), ("science", .num 101)]⟩ 5 mathStore).1.data
      = none ∧
    (addMarks ⟨.oid 0, some [("math", .num 90), ("science", .num 101)]⟩ 5 mathStore).2
      = mathStore :=
  ⟨rfl, by simp,
   addMarks_rejects_invalid_payload ⟨.oid 0, some [("math", .num 90), ("science", .num 101)]⟩ 5
    mathStore 0 [("math", .num 90), ("science", .num 101)] ("science", .num 101) rfl rfl rfl
    (by simp) (by
      intro x hx
      simp only [JsVal.num.injEq] at hx
      right
      rw [← hx]
      norm_num)⟩

/-! ## The aggregation utilities, as specified -/

theorem log_two_eq {x : ℚ} {e : ℤ} (hx : 0 < x) (h1 : (2 : ℚ) ^ e ≤ x)
    (h2 : x < (2 : ℚ) ^ (e + 1)) : Int.log 2 x = e := by
  apply le_antisymm
  · have := (Int.lt_zpow_iff_log_lt (b := 2) (by norm_num) hx (x := e + 1)).mp
      (by exact_mod_cast h2)
    omega
  · exact (Int.zpow_le_iff_le_log (b := 2) (by norm_num) hx).mp (by exact_mod_cast h1)

theorem toDouble_of_round {x : ℚ} (e m : ℤ) (hx : 0 < x) (h1 : (2 : ℚ) ^ e ≤ x)
    (h2 : x < (2 : ℚ) ^ (e + 1)) (hmin : -1022 ≤ e)
    (hm : roundHalfEven (x / (2 : ℚ) ^ (e - 52)) = m) (y : ℚ)
    (hy : (m : ℚ) * (2 : ℚ) ^ (e - 52) = y) : toDouble x = y := by
  unfold toDouble
  rw [if_neg (ne_of_gt hx), abs_of_pos hx, log_two_eq hx h1 h2]
  simp only [max_eq_left hmin, hm]
  exact hy

theorem toDouble_6722 : toDouble (6722 / 100) = 4730186983622574 / 2 ^ 46 :=
  toDouble_of_round 6 4730186983622574 (by norm_num) (by norm_num) (by norm_num) (by norm_num)
    (by simp only [roundHalfEven]; norm_num) _ (by norm_num)

theorem toDouble_6723 : toDouble (6723 / 100) = 4730890671064351 / 2 ^ 46 :=
  toDouble_of_round 6 4730890671064351 (by norm_num) (by norm_num) (by norm_num) (by norm_num)
    (by simp only [roundHalfEven]; norm_num) _ (by norm_num)

theorem toDouble_8333 : toDouble (8333 / 100) = 5863827452324741 / 2 ^ 46 :=
  toDouble_of_round 6 5863827452324741 (by norm_num) (by norm_num) (by norm_num) (by norm_num)
    (by simp only [roundHalfEven]; norm_num) _ (by norm_num)

theorem eighths_sum :
    List.foldl (fun total mark => toDouble (total + mark)) 0
      [(123 / 8 : ℚ), 95, 85 / 2, 369 / 4, 91] = 2689 / 8 := by
  have h1 : toDouble (0 + 123 / 8) = 123 / 8 :=
    toDouble_of_round 3 8655355533852672 (by norm_num) (by norm_num) (by norm_num)
      (by norm_num) (by simp only [roundHalfEven]; norm_num) _ (by norm_num)
  have h2 : toDouble (123 / 8 + 95) = 883 / 8 :=
    toDouble_of_round 6 7766950138609664 (by norm_num) (by norm_num) (by norm_num)
      (by norm_num) (by simp only [roundHalfEven]; norm_num) _ (by norm_num)
  have h3 : toDouble (883 / 8 + 85 / 2) = 1223 / 8 :=
    toDouble_of_round 7 5378810883080192 (by norm_num) (by norm_num) (by norm_num)
      (by norm_num) (by simp only [roundHalfEven]; norm_num) _ (by norm_num)
  have h4 : toDouble (1223 / 8 + 369 / 4) = 1961 / 8 :=
    toDouble_of_round 7 8624569208274944 (by norm_num) (by norm_num) (by norm_num)
      (by norm_num) (by simp only [roundHalfEven]; norm_num) _ (by norm_num)
  have h5 : toDouble (1961 / 8 + 91) = 2689 / 8 :=
    toDouble_of_round 8 5913173534179328 (by norm_num) (by norm_num) (by norm_num)
      (by norm_num) (by simp only [roundHalfEven]; norm_num) _ (by norm_num)
  simp only [List.foldl, h1, h2, h3, h4, h5]

theorem calculateAverageDouble_eighths :
    calculateAverageDouble eighthsMarks = 4730186983622574 / 2 ^ 46 := by
  have havg : toDouble (2689 / 8 / 5) = 4730538827343462 / 2 ^ 46 :=
    toDouble_of_round 6 4730538827343462 (by norm_num) (by norm_num) (by norm_num)
      (by norm_num) (by simp only [roundHalfEven]; norm_num) _ (by norm_num)
  have hmul : toDouble (4730538827343462 / 2 ^ 46 * 100) = 7391466917724159 / 2 ^ 40 :=
    toDouble_of_round 12 7391466917724159 (by norm_num) (by norm_num) (by norm_num)
      (by norm_num) (by simp only [roundHalfEven]; norm_num) _ (by norm_num)
  have hround : Math.round (7391466917724159 / 2 ^ 40) = 6722 := by
    simp only [Math.round]
    norm_num
  have hres : toDouble (((6722 : ℤ) : ℚ) / 100) = 4730186983622574 / 2 ^ 46 := by
    rw [← toDouble_6722]
    norm_num
  have hlen : (((0 + 1 + 1 + 1 + 1 + 1 : ℕ)) : ℚ) = 5 := by norm_num
  simp only [calculateAverageDouble, eighthsMarks, List.map, List.length]
  rw [if_neg (by norm_num), eighths_sum, hlen, havg, hmul, hround, hres]

theorem calculateAverageDouble_documented :
    calculateAverageDouble [("math", 85), ("science", 90), ("english", 75)] =
      5863827452324741 / 2 ^ 46 := by
  have h1 : toDouble (0 + 85) = 85 :=
    toDouble_of_round 6 5981343255101440 (by norm_num) (by norm_num) (by norm_num)
      (by norm_num) (by simp only [roundHalfEven]; norm_num) _ (by norm_num)
  have h2 : toDouble (85 + 90) = 175 :=
    toDouble_of_round 7 6157265115545600 (by norm_num) (by norm_num) (by norm_num)
      (by norm_num) (by simp only [roundHalfEven]; norm_num) _ (by norm_num)
  have h3 : toDouble (175 + 75) = 250 :=
    toDouble_of_round 7 8796093022208000 (by norm_num) (by norm_num) (by norm_num)
      (by norm_num) (by simp only [roundHalfEven]; norm_num) _ (by norm_num)
  have havg : toDouble (250 / 3) = 5864062014805333 / 2 ^ 46 :=
    toDouble_of_round 6 5864062014805333 (by norm_num) (by norm_num) (by norm_num)
      (by norm_num) (by simp only [roundHalfEven]; norm_num) _ (by norm_num)
  have hmul : toDouble (5864062014805333 / 2 ^ 46 * 100) = 4581298449066666 / 2 ^ 39 :=
    toDouble_of_round 13 4581298449066666 (by norm_num) (by norm_num) (by norm_num)
      (by norm_num) (by simp only [roundHalfEven]; norm_num) _ (by norm_num)
  have hround : Math.round (4581298449066666 / 2 ^ 39) = 8333 := by
    simp only [Math.round]
    norm_num
  have hres : toDouble (((8333 : ℤ) : ℚ) / 100) = 5863827452324741 / 2 ^ 46 := by
    rw [← toDouble_8333]
    norm_num
  have hlen : (((0 + 1 + 1 + 1 : ℕ)) : ℚ) = 3 := by norm_num
  simp only [calculateAverageDouble, List.map, List.length, List.foldl]
  rw [if_neg (by norm_num), h1, h2, h3, hlen, havg, hmul, hround, hres]

/-- C5, the code at the marks `{math: 15.375, science: 95, english: 42.5, history: 92.25,
art: 91}`, whose mean is exactly 67.225: the reference definition gives 67.23, and
`calculateAverage` evaluated in doubles returns the double of 67.22, which is not the
double of 67.23. On the documented example `{math: 85, science: 90, english: 75}` the
evaluation in doubles returns the double of 83.33. -/
theorem calculateAverageDouble_rounds_half_down :
    calculateAverageDouble [("math", 85), ("science", 90), ("english", 75)] =
      toDouble (8333 / 100) ∧
    (eighthsMarks.map Prod.snd).sum / 5 = 67225 / 1000 ∧
    averageSpec eighthsMarks = 6723 / 100 ∧
    calculateAverageDouble eighthsMarks = toDouble (6722 / 100) ∧
    toDouble (6722 / 100) ≠ toDouble (6723 / 100) := by
  refine ⟨?_, ?_, ?_, ?_, ?_⟩
  · rw [calculateAverageDouble_documented, toDouble_8333]
  · simp [eighthsMarks]
    norm_num
  · simp [averageSpec, eighthsMarks]
    norm_num
  · rw [calculateAverageDouble_eighths, toDouble_6722]
  · rw [toDouble_6722, toDouble_6723]
    norm_num

/-- C6: `classifyPerformance x` is `Excellent` iff `x ≥ 90`, `Good` iff `75 ≤ x < 90`,
`Average` iff `60 ≤ x < 75` and `Poor` iff `x < 60`; the six boundary values of the
specification are classified accordingly. -/
theorem classifyPerformance_bands :
    (∀ x : ℚ,
      (classifyPerformance x = "Excellent" ↔ x ≥ 90) ∧
      (classifyPerformance x = "Good" ↔ 75 ≤ x ∧ x < 90) ∧
      (classifyPerformance x = "Average" ↔ 60 ≤ x ∧ x < 75) ∧
      (classifyPerformance x = "Poor" ↔ x < 60)) ∧
    classifyPerformance (5999 / 100) = "Poor" ∧ classifyPerformance 60 = "Average" ∧
    classifyPerformance (7499 / 100) = "Average" ∧ classifyPerformance 75 = "Good" ∧
    classifyPerformance (8999 / 100) = "Good" ∧ classifyPerformance 90 = "Excellent" :=
  ⟨classify_cases, classify_examples⟩


/-! ## The low-attendance listing -/

theorem formatAll_isSome (db : Store) (records : List Performance)
    (hjoin : ∀ r ∈ records, (Student.findById db r.studentId).isSome = true) :
    ∃ entries, formatAll db records = some entries ∧
      entries.map (fun e => (e.student.id, e.attendancePercentage, e.performanceStatus)) =
        records.map (fun r => (r.studentId, r.attendancePercentage, r.performanceStatus)) := by
  induction records with
  | nil => exact ⟨[], rfl, rfl⟩
  | cons r rest ih =>
    obtain ⟨entries, he, hmap⟩ := ih (fun x hx => hjoin x (List.mem_cons_of_mem _ hx))
    obtain ⟨s, hs⟩ := Option.isSome_iff_exists.mp (hjoin r (List.mem_cons_self _ _))
    have hsid : s._id = r.studentId := by
      have := List.find?_some hs
      simpa using this
    refine ⟨⟨⟨s._id, s.name, s.rollNumber, s.studentClass, s.sectionName⟩,
      r.attendancePercentage, r.performanceStatus⟩ :: entries,
      by simp [formatAll, formatEntry, hs, he], ?_⟩
    simp [hmap, hsid]

theorem getLowAttendanceStudents_of_pos (t : ℚ) (h0 : 0 < t) (h1 : t ≤ 100) (db : Store)
    (hjoin : ∀ r ∈ db.performances, (Student.findById db r.studentId).isSome = true) :
    ∃ entries,
      getLowAttendanceStudents (some t) db = ⟨200, true, none, some ⟨t, entries.length, entries⟩⟩ ∧
      entries.map (fun e => (e.student.id, e.attendancePercentage, e.performanceStatus)) =
        (db.performances.filter (fun p => decide (p.attendancePercentage < t))).map
          (fun r => (r.studentId, r.attendancePercentage, r.performanceStatus)) := by
  obtain ⟨entries, he, hmap⟩ := formatAll_isSome db
    (db.performances.filter (fun p => decide (p.attendancePercentage < t)))
    (fun r hr => hjoin r (List.mem_of_mem_filter hr))
  refine ⟨entries, ?_, hmap⟩
  have ht : thresholdOrDefault (some t) = t := by
    simp [thresholdOrDefault, ne_of_gt h0]
  have hr : ¬ (t < 0 ∨ t > 100) := by push_neg; exact ⟨le_of_lt h0, h1⟩
  simp only [getLowAttendanceStudents, ht, hr, if_false, he]

/-- C7, the code at the supplied threshold `0`: the response echoes `75`, not `0`, and
lists a record whose attendance `50` is not below `0`. -/
theorem getLowAttendanceStudents_threshold_zero :
    getLowAttendanceStudents (some 0) lowStore =
      ⟨200, true, none, some ⟨75, 1, [⟨⟨0, "Alice", "R1", "10th", "A"⟩, 50, "Poor"⟩]⟩⟩ := by
  simp [getLowAttendanceStudents, thresholdOrDefault, lowStore, formatAll, formatEntry,
    Student.findById]
  norm_num

/-! ## Attendance submissions leave the marks alone -/

theorem addAttendance_keeps_marks (req : AttendanceRequest) (now : Nat) (db : Store)
    (id : ObjectId) (p : Performance) (hp : Performance.findOne db id = some p) :
    ∃ q, Performance.findOne (addAttendance req now db).2 id = some q ∧
      q.marks = p.marks ∧ q.averageMarks = p.averageMarks ∧
      q.performanceStatus = p.performanceStatus := by
  rcases addAttendance_store req now db with h | ⟨id0, a, p0, -, -, hp0, h⟩ | ⟨id0, a, -, -, hp0, h⟩
  · rw [h]; exact ⟨p, hp, rfl, rfl, rfl⟩
  · rw [h]
    by_cases hid : id0 = id
    · subst hid
      rw [hp] at hp0
      cases hp0
      refine ⟨_, find?_replaceFirst_hit _ _ _
        (by simpa using Performance.findOne_studentId hp)
        (by unfold Performance.findOne at hp; simp [hp]), rfl, rfl, rfl⟩
    · refine ⟨p, ?_, rfl, rfl, rfl⟩
      have hp0id := Performance.findOne_studentId hp0
      unfold Performance.findOne at hp ⊢
      rw [← hp]
      apply find?_replaceFirst_other
      · intro x hx
        simp only [beq_iff_eq] at hx
        simp only [beq_eq_false_iff_ne, ne_eq]
        rw [hx]; exact hid
      · simp only [beq_eq_false_iff_ne, ne_eq]
        rw [hp0id]; exact hid
  · rw [h]
    refine ⟨p, ?_, rfl, rfl, rfl⟩
    unfold Performance.findOne at hp ⊢
    simp [List.find?_append, hp]

theorem run_attendance_keeps_marks (reqs : List (Nat × AttendanceRequest)) (db : Store)
    (id : ObjectId) (p : Performance) (hp : Performance.findOne db id = some p) :
    ∃ q, Performance.findOne
        (run db (reqs.map fun r => (r.1, Request.addAttendance r.2))) id = some q ∧
      q.marks = p.marks ∧ q.averageMarks = p.averageMarks ∧
      q.performanceStatus = p.performanceStatus := by
  induction reqs generalizing db p with
  | nil => exact ⟨p, hp, rfl, rfl, rfl⟩
  | cons r rest ih =>
    obtain ⟨q, hq, h1, h2, h3⟩ := addAttendance_keeps_marks r.2 r.1 db id p hp
    obtain ⟨q', hq', h1', h2', h3'⟩ := ih _ q hq
    exact ⟨q', by simpa [run, step] using hq', h1'.trans h1, h2'.trans h2, h3'.trans h3⟩

/-- C8: for a student holding a record, a successful `addAttendance` returns and stores
a record with the same `marks`, `averageMarks` and `performanceStatus`; and after any
sequence of attendance submissions (for any students, accepted or not) the student's
record still has the `marks`, `averageMarks` and `performanceStatus` it had. -/
theorem addAttendance_frame (db : Store) (id : ObjectId) (p : Performance)
    (hp : Performance.findOne db id = some p) :
    (∀ (req : AttendanceRequest) (now : Nat), req.studentId = .oid id →
      (addAttendance req now db).1.status = 200 →
      ∃ q, (addAttendance req now db).1.data = some q ∧
        Performance.findOne (addAttendance req now db).2 id = some q ∧
        q.marks = p.marks ∧ q.averageMarks = p.averageMarks ∧
        q.performanceStatus = p.performanceStatus) ∧
    (∀ reqs : List (Nat × AttendanceRequest),
      ∃ q, Performance.findOne
          (run db (reqs.map fun r => (r.1, Request.addAttendance r.2))) id = some q ∧
        q.marks = p.marks ∧ q.averageMarks = p.averageMarks ∧
        q.performanceStatus = p.performanceStatus) := by
  refine ⟨?_, fun reqs => run_attendance_keeps_marks reqs db id p hp⟩
  intro req now hid hok
  obtain ⟨id', a, hid', ha, h0, h1, hs⟩ := addAttendance_inv hok
  rw [hid] at hid'
  cases hid'
  rw [addAttendance_existing hid ha h0 h1 hs hp] at hok ⊢
  split_ifs at hok ⊢ with hval
  · exact ⟨_, rfl, find?_replaceFirst_hit _ _ _
      (by simpa using Performance.findOne_studentId hp)
      (by unfold Performance.findOne at hp; simp [hp]), rfl, rfl, rfl⟩
  · simp at hok


/-- C8 at a concrete input: the student holding `{math: 80}`. -/
theorem addAttendance_frame_witness :
    Performance.findOne mathStore 0 = some mathRecord ∧
    (∀ (req : AttendanceRequest) (now : Nat), req.studentId = .oid 0 →
      (addAttendance req now mathStore).1.status = 200 →
      ∃ q, (addAttendance req now mathStore).1.data = some q ∧
        Performance.findOne (addAttendance req now mathStore).2 0 = some q ∧
        q.marks = mathRecord.marks ∧ q.averageMarks = mathRecord.averageMarks ∧
        q.performanceStatus = mathRecord.performanceStatus) ∧
    (∀ reqs : List (Nat × AttendanceRequest),
      ∃ q, Performance.findOne
          (run mathStore (reqs.map fun r => (r.1, Request.addAttendance r.2))) 0 = some q ∧
        q.marks = mathRecord.marks ∧ q.averageMarks = mathRecord.averageMarks ∧
        q.performanceStatus = mathRecord.performanceStatus) :=
  ⟨rfl, addAttendance_frame mathStore 0 mathRecord rfl⟩

/-! ## The status is the classification of the average -/

theorem addMarks_data_status {req : MarksRequest} {now : Nat} {db : Store} {p : Performance}
    (hok : (addMarks req now db).1.status = 200)
    (hdata : (addMarks req now db).1.data = some p) :
    p.performanceStatus = classifyPerformance p.averageMarks := by
  obtain ⟨id, marks, hid, hm, hs, hv⟩ := addMarks_inv hok
  cases hp : Performance.findOne db id with
  | some r =>
    rw [addMarks_existing hid hm hs hv hp] at hdata
    split_ifs at hdata
    simp only [Option.some.injEq] at hdata
    rw [← hdata]
  | none =>
    rw [addMarks_new hid hm hs hv hp] at hdata
    simp only [Option.some.injEq] at hdata
    rw [← hdata]

theorem step_preserves_status (db : Store) (now : Nat) (req : Request)
    (h : ∀ p ∈ db.performances, p.performanceStatus = classifyPerformance p.averageMarks) :
    ∀ p ∈ (step db now req).performances,
      p.performanceStatus = classifyPerformance p.averageMarks := by
  intro p hmem
  cases req with
  | createStudent r =>
    simp only [step, createStudent_performances] at hmem
    exact h p hmem
  | addMarks r =>
    simp only [step] at hmem
    rcases addMarks_store r now db with e | ⟨id, marks, p0, -, -, -, e⟩ | ⟨id, marks, -, -, -, e⟩
    · rw [e] at hmem; exact h p hmem
    · rw [e] at hmem
      rcases mem_replaceFirst hmem with rfl | hold
      · rfl
      · exact h p hold
    · rw [e] at hmem
      rcases List.mem_append.mp hmem with hold | hnew
      · exact h p hold
      · rw [List.mem_singleton] at hnew
        rw [hnew]
  | addAttendance r =>
    simp only [step] at hmem
    rcases addAttendance_store r now db with e | ⟨id, a, p0, -, -, hp0, e⟩ | ⟨id, a, -, -, -, e⟩
    · rw [e] at hmem; exact h p hmem
    · rw [e] at hmem
      rcases mem_replaceFirst hmem with rfl | hold
      · exact h p0 (Performance.findOne_mem hp0)
      · exact h p hold
    · rw [e] at hmem
      rcases List.mem_append.mp hmem with hold | hnew
      · exact h p hold
      · rw [List.mem_singleton] at hnew
        rw [hnew]
        simp only [classifyPerformance]
        norm_num

theorem run_preserves_status (reqs : List (Nat × Request)) (db : Store)
    (h : ∀ p ∈ db.performances, p.performanceStatus = classifyPerformance p.averageMarks) :
    ∀ p ∈ (run db reqs).performances,
      p.performanceStatus = classifyPerformance p.averageMarks := by
  induction reqs generalizing db with
  | nil => exact h
  | cons r rest ih => exact ih _ (step_preserves_status db r.1 r.2 h)

/-- C9: in every state reached from a store without performance records by any
sequence of requests, every record has `performanceStatus =
classifyPerformance(averageMarks)`; and the record returned by a successful `addMarks`
in such a state has status `Excellent` exactly when its `averageMarks` is at least 90. -/
theorem performanceStatus_classifies_average (db0 : Store) (h0 : db0.performances = [])
    (reqs : List (Nat × Request)) (req : MarksRequest) (now : Nat) (p : Performance) :
    (∀ r ∈ (run db0 reqs).performances,
      r.performanceStatus = classifyPerformance r.averageMarks) ∧
    ((addMarks req now (run db0 reqs)).1.status = 200 →
      (addMarks req now (run db0 reqs)).1.data = some p →
      (p.performanceStatus = classifyPerformance p.averageMarks ∧
        (p.performanceStatus = "Excellent" ↔ p.averageMarks ≥ 90))) := by
  refine ⟨run_preserves_status reqs db0 (by simp [h0]), ?_⟩
  intro hok hdata
  have hst := addMarks_data_status hok hdata
  refine ⟨hst, ?_⟩
  rw [hst]
  exact (classify_cases p.averageMarks).1

/-- C9 at a concrete input: after the creation of a student, `{math: 80}` is submitted. -/
theorem performanceStatus_classifies_average_witness :
    Store.empty.performances = [] ∧
    (∀ r ∈ (run Store.empty [(1, Request.createStudent aliceRequest)]).performances,
      r.performanceStatus = classifyPerformance r.averageMarks) ∧
    (mathRecord.performanceStatus = classifyPerformance mathRecord.averageMarks ∧
      (mathRecord.performanceStatus = "Excellent" ↔ mathRecord.averageMarks ≥ 90)) :=
  ⟨rfl,
   (performanceStatus_classifies_average Store.empty rfl
      [(1, Request.createStudent aliceRequest)] mathRequest 2 mathRecord).1,
   (performanceStatus_classifies_average Store.empty rfl
      [(1, Request.createStudent aliceRequest)] mathRequest 2 mathRecord).2
      (by simp [run, step, createStudent_alice, addMarks_mathRequest])
      (by simp [run, step, createStudent_alice, addMarks_mathRequest])⟩

/-! ## The first marks submission of a student -/

theorem firstInvalidSubject_of_valid {marks : List (String × JsVal)}
    (hvalid : ∀ e ∈ marks, ∃ x : ℚ, e.2 = JsVal.num x ∧ 0 ≤ x ∧ x ≤ 100) :
    firstInvalidSubject marks = none := by
  rw [firstInvalidSubject_eq_none]
  intro e he
  obtain ⟨x, hx, h0, h1⟩ := hvalid e he
  simp [hx, invalidMark, h0, h1]

/-- C10: for an existing student without a record and a marks object `P` whose values
are all numbers in `[0, 100]`, `addMarks` responds 200 and appends one record for that
student, with marks equal to `P`, attendance 0, `averageMarks = calculateAverage(P)`
and the status that classifies this average; for
`{math: 95, science: 98, english: 92, history: 94}` these are 94.75 and `Excellent`. -/
theorem addMarks_creates_record (req : MarksRequest) (now : Nat) (db : Store)
    (id : ObjectId) (marks : List (String × JsVal))
    (hid : req.studentId = .oid id) (hm : req.marks = some marks)
    (hs : (Student.findById db id).isSome = true)
    (hnone : Performance.findOne db id = none)
    (hvalid : ∀ e ∈ marks, ∃ x : ℚ, e.2 = JsVal.num x ∧ 0 ≤ x ∧ x ≤ 100) :
    (∃ p, (addMarks req now db).1.status = 200 ∧
      (addMarks req now db).1.data = some p ∧
      (addMarks req now db).2 = { db with performances := db.performances ++ [p] } ∧
      Performance.findOne (addMarks req now db).2 id = some p ∧
      p.studentId = id ∧
      p.marks.map (fun e => (e.1, JsVal.num e.2)) = marks ∧
      p.attendancePercentage = 0 ∧
      p.averageMarks = calculateAverage p.marks ∧
      p.performanceStatus = classifyPerformance (calculateAverage p.marks)) ∧
    calculateAverage [("math", 95), ("science", 98), ("english", 92), ("history", 94)]
      = 9475 / 100 ∧
    classifyPerformance (9475 / 100) = "Excellent" := by
  have hv := firstInvalidSubject_of_valid hvalid
  refine ⟨?_, ?_, ?_⟩
  · rw [addMarks_new hid hm hs hv hnone]
    refine ⟨_, rfl, rfl, rfl, ?_, rfl, ?_, rfl, rfl, rfl⟩
    · unfold Performance.findOne at hnone ⊢
      simp [List.find?_append, hnone]
    · exact numericMarks_roundtrip (firstInvalidSubject_eq_none.mp hv)
  · simp [calculateAverage, Math.round]
    norm_num
  · simp only [classifyPerformance]
    norm_num

/-- C10 at a concrete input: the four-subject submission for a freshly created student. -/
theorem addMarks_creates_record_witness :
    (Student.findById aliceStore 0).isSome = true ∧
    Performance.findOne aliceStore 0 = none ∧
    (∃ p, (addMarks excellentRequest 2 aliceStore).1.status = 200 ∧
      (addMarks excellentRequest 2 aliceStore).1.data = some p ∧
      (addMarks excellentRequest 2 aliceStore).2
        = { aliceStore with performances := aliceStore.performances ++ [p] } ∧
      Performance.findOne (addMarks excellentRequest 2 aliceStore).2 0 = some p ∧
      p.studentId = 0 ∧
      p.marks.map (fun e => (e.1, JsVal.num e.2)) =
        [("math", .num 95), ("science", .num 98), ("english", .num 92), ("history", .num 94)] ∧
      p.attendancePercentage = 0 ∧
      p.averageMarks = calculateAverage p.marks ∧
      p.performanceStatus = classifyPerformance (calculateAverage p.marks)) ∧
    calculateAverage [("math", 95), ("science", 98), ("english", 92), ("history", 94)]
      = 9475 / 100 ∧
    classifyPerformance (9475 / 100) = "Excellent" :=
  ⟨rfl, rfl,
   addMarks_creates_record excellentRequest 2 aliceStore 0
    [("math", .num 95), ("science", .num 98), ("english", .num 92), ("history", .num 94)]
    rfl rfl rfl rfl (by
      intro e he
      simp only [List.mem_cons, List.mem_singleton, List.not_mem_nil, or_false] at he
      rcases he with rfl | rfl | rfl | rfl
      · exact ⟨95, rfl, by norm_num, by norm_num⟩
      · exact ⟨98, rfl, by norm_num, by norm_num⟩
      · exact ⟨92, rfl, by norm_num, by norm_num⟩
      · exact ⟨94, rfl, by norm_num, by norm_num⟩)⟩

/-! ## Consistency of the reachable stores -/

theorem Student.findById_congr {db db' : Store} (h : db'.students = db.students)
    (id : ObjectId) : Student.findById db' id = Student.findById db id := by
  unfold Student.findById
  rw [h]

theorem Student.findById_isSome_append {db db' : Store} {s : Student}
    (h : db'.students = db.students ++ [s]) {id : ObjectId}
    (hs : (Student.findById db id).isSome = true) :
    (Student.findById db' id).isSome = true := by
  unfold Student.findById at hs ⊢
  rw [h, List.find?_append]
  obtain ⟨x, hx⟩ := Option.isSome_iff_exists.mp hs
  simp [hx]

theorem createStudent_store (req : StudentRequest) (now : Nat) (db : Store) :
    (createStudent req now db).2 = db ∨
    ∃ s, (createStudent req now db).2 =
      { db with students := db.students ++ [s], nextId := db.nextId + 1 } := by
  unfold createStudent
  split_ifs
  · left; rfl
  · split
    · left; rfl
    · split
      · rename_i student db' hc
        unfold Student.create at hc
        simp only at hc
        split_ifs at hc
        simp only [Option.some.injEq, Prod.mk.injEq] at hc
        right
        exact ⟨_, hc.2.symm⟩
      · left; rfl

theorem map_studentId_replaceFirst (id : ObjectId) (q : Performance) (l : List Performance)
    (hq : q.studentId = id) :
    (replaceFirst (fun r => r.studentId == id) q l).map (fun r => r.studentId) =
      l.map (fun r => r.studentId) := by
  induction l with
  | nil => rfl
  | cons x xs ih =>
    by_cases hx : x.studentId = id
    · simp [replaceFirst, hx, hq]
    · have hx' : (x.studentId == id) = false := by simpa using hx
      simp [replaceFirst, hx', ih]

theorem not_mem_ids_of_findOne_none {db : Store} {id : ObjectId}
    (h : Performance.findOne db id = none) :
    id ∉ db.performances.map (fun r => r.studentId) := by
  unfold Performance.findOne at h
  rw [List.find?_eq_none] at h
  intro hmem
  obtain ⟨r, hr, hrid⟩ := List.mem_map.mp hmem
  exact h r hr (by simpa using hrid)

theorem validate_marks_record {marks : List (String × JsVal)}
    (hv : firstInvalidSubject marks = none) (id : ObjectId) (now : Nat) :
    Performance.validate
      { studentId := id, marks := numericMarks marks, attendancePercentage := 0,
        averageMarks := calculateAverage (numericMarks marks),
        performanceStatus := classifyPerformance (calculateAverage (numericMarks marks)),
        lastUpdated := now } = true := by
  have hb := calculateAverage_bounds _ (numericMarks_bounds (firstInvalidSubject_eq_none.mp hv))
  have he := classify_mem_enum (calculateAverage (numericMarks marks))
  simp only [Performance.validate, Bool.and_eq_true, decide_eq_true_eq]
  exact ⟨⟨⟨⟨le_refl _, by norm_num⟩, hb.1⟩, hb.2⟩, he⟩

theorem validate_attendance_record {a : ℚ} (h0 : 0 ≤ a) (h1 : a ≤ 100) (id : ObjectId)
    (now : Nat) :
    Performance.validate
      { studentId := id, marks := [], attendancePercentage := a, averageMarks := 0,
        performanceStatus := "Poor", lastUpdated := now } = true := by
  simp only [Performance.validate, Bool.and_eq_true, decide_eq_true_eq]
  exact ⟨⟨⟨⟨h0, h1⟩, le_refl _⟩, by norm_num⟩, by simp⟩

theorem validate_with_attendance {p : Performance} (hp : p.validate = true) {a : ℚ}
    (h0 : 0 ≤ a) (h1 : a ≤ 100) (now : Nat) :
    Performance.validate { p with attendancePercentage := a, lastUpdated := now } = true := by
  simp only [Performance.validate, Bool.and_eq_true, decide_eq_true_eq] at hp ⊢
  exact ⟨⟨⟨⟨h0, h1⟩, hp.1.1.2⟩, hp.1.2⟩, hp.2⟩

theorem step_cases (db : Store) (now : Nat) (req : Request) :
    ((step db now req).performances = db.performances ∧
      ((step db now req).students = db.students ∨
        ∃ s, (step db now req).students = db.students ++ [s])) ∨
    (∃ id p q, (step db now req).students = db.students ∧
      (Student.findById db id).isSome = true ∧ Performance.findOne db id = some p ∧
      q.studentId = id ∧ q.validate = true ∧
      (step db now req).performances =
        replaceFirst (fun r => r.studentId == id) q db.performances) ∨
    (∃ id q, (step db now req).students = db.students ∧
      (Student.findById db id).isSome = true ∧ Performance.findOne db id = none ∧
      q.studentId = id ∧ q.validate = true ∧
      (step db now req).performances = db.performances ++ [q]) := by
  cases req with
  | createStudent r =>
    left
    simp only [step]
    rcases createStudent_store r now db with h | ⟨s, h⟩
    · rw [h]; exact ⟨rfl, Or.inl rfl⟩
    · rw [h]; exact ⟨rfl, Or.inr ⟨s, rfl⟩⟩
  | addMarks r =>
    simp only [step]
    obtain ⟨sid, m⟩ := r
    cases m with
    | none => left; simp [addMarks]
    | some marks =>
      cases sid with
      | malformed => left; simp [addMarks]
      | oid id =>
        cases hs : Student.findById db id with
        | none => left; simp [addMarks, hs]
        | some s =>
          cases hv : firstInvalidSubject marks with
          | some subject => left; simp [addMarks, hs, hv]
          | none =>
            have hs' : (Student.findById db id).isSome = true := by simp [hs]
            cases hp : Performance.findOne db id with
            | some p =>
              rw [addMarks_existing rfl rfl hs' hv hp]
              split_ifs with hval
              · right; left
                have hpid : p.studentId = id := Performance.findOne_studentId hp
                refine ⟨id, p, _, rfl, hs', hp, ?_, hval, rfl⟩
                exact hpid
              · left; exact ⟨rfl, Or.inl rfl⟩
            | none =>
              rw [addMarks_new rfl rfl hs' hv hp]
              right; right
              exact ⟨id, _, rfl, hs', hp, rfl, validate_marks_record hv id now, rfl⟩
  | addAttendance r =>
    simp only [step]
    obtain ⟨sid, v⟩ := r
    cases v with
    | num a =>
      by_cases hr : a < 0 ∨ a > 100
      · left; simp [addAttendance, hr]
      · cases sid with
        | malformed => left; simp [addAttendance, hr]
        | oid id =>
          cases hs : Student.findById db id with
          | none => left; simp [addAttendance, hr, hs]
          | some s =>
            have hs' : (Student.findById db id).isSome = true := by simp [hs]
            push_neg at hr
            cases hp : Performance.findOne db id with
            | some p =>
              rw [addAttendance_existing rfl rfl hr.1 hr.2 hs' hp]
              split_ifs with hval
              · right; left
                have hpid : p.studentId = id := Performance.findOne_studentId hp
                refine ⟨id, p, _, rfl, hs', hp, ?_, hval, rfl⟩
                exact hpid
              · left; exact ⟨rfl, Or.inl rfl⟩
            | none =>
              rw [addAttendance_new rfl rfl hr.1 hr.2 hs' hp]
              right; right
              exact ⟨id, _, rfl, hs', hp, rfl, validate_attendance_record hr.1 hr.2 id now, rfl⟩
    | _ => left; simp [addAttendance]

theorem step_wellFormed (db : Store) (now : Nat) (req : Request) (h : db.WellFormed) :
    (step db now req).WellFormed := by
  obtain ⟨hrec, hnd⟩ := h
  rcases step_cases db now req with ⟨hp, hst⟩ | ⟨id, p, q, hst, hs, hp, hq, hval, hperf⟩ |
      ⟨id, q, hst, hs, hp, hq, hval, hperf⟩
  · refine ⟨?_, by rw [hp]; exact hnd⟩
    intro r hr
    rw [hp] at hr
    refine ⟨(hrec r hr).1, ?_⟩
    rcases hst with hst | ⟨s, hst⟩
    · rw [Student.findById_congr hst]; exact (hrec r hr).2
    · exact Student.findById_isSome_append hst (hrec r hr).2
  · refine ⟨?_, by rw [hperf, map_studentId_replaceFirst id q _ hq]; exact hnd⟩
    intro r hr
    rw [hperf] at hr
    rw [Student.findById_congr hst]
    rcases mem_replaceFirst hr with rfl | hold
    · exact ⟨hval, by rw [hq]; exact hs⟩
    · exact hrec r hold
  · refine ⟨?_, ?_⟩
    · intro r hr
      rw [hperf] at hr
      rw [Student.findById_congr hst]
      rcases List.mem_append.mp hr with hold | hnew
      · exact hrec r hold
      · rw [List.mem_singleton] at hnew
        subst hnew
        exact ⟨hval, by rw [hq]; exact hs⟩
    · rw [hperf, List.map_append, List.nodup_append]
      refine ⟨hnd, by simp, ?_⟩
      intro x hx hx'
      simp only [List.map_cons, List.map_nil, List.mem_singleton] at hx'
      rw [hx', hq] at hx
      exact not_mem_ids_of_findOne_none hp hx

theorem run_wellFormed (reqs : List (Nat × Request)) (db : Store) (h : db.WellFormed) :
    (run db reqs).WellFormed := by
  induction reqs generalizing db with
  | nil => exact h
  | cons r rest ih => exact ih _ (step_wellFormed db r.1 r.2 h)

theorem wellFormed_of_no_records {db : Store} (h : db.performances = []) : db.WellFormed := by
  unfold Store.WellFormed
  rw [h]
  simp

/-! ## Attendance submissions -/

/-- C11: in every state reached from a store without performance records, for an
existing student and a number `a` in `[0, 100]`, `addAttendance` responds 200 with the
student's record, now stored with `attendancePercentage = a`; when the student had no
record, the created record has empty marks, `averageMarks` 0 and status `Poor`. -/
theorem addAttendance_records_value (db0 : Store) (h0 : db0.performances = [])
    (reqs : List (Nat × Request)) (req : AttendanceRequest) (now : Nat) (id : ObjectId)
    (a : ℚ) (hid : req.studentId = .oid id) (ha : req.attendancePercentage = .num a)
    (hlo : 0 ≤ a) (hhi : a ≤ 100)
    (hs : (Student.findById (run db0 reqs) id).isSome = true) :
    ∃ q, (addAttendance req now (run db0 reqs)).1.status = 200 ∧
      (addAttendance req now (run db0 reqs)).1.data = some q ∧
      Performance.findOne (addAttendance req now (run db0 reqs)).2 id = some q ∧
      q.studentId = id ∧ q.attendancePercentage = a ∧
      (Performance.findOne (run db0 reqs) id = none →
        q.marks = [] ∧ q.averageMarks = 0 ∧ q.performanceStatus = "Poor") := by
  have hwf := run_wellFormed reqs db0 (wellFormed_of_no_records h0)
  cases hp : Performance.findOne (run db0 reqs) id with
  | none =>
    rw [addAttendance_new hid ha hlo hhi hs hp]
    refine ⟨_, rfl, rfl, ?_, rfl, rfl, fun _ => ⟨rfl, rfl, rfl⟩⟩
    unfold Performance.findOne at hp ⊢
    simp [List.find?_append, hp]
  | some p =>
    have hpv := (hwf.1 p (Performance.findOne_mem hp)).1
    have hpid : p.studentId = id := Performance.findOne_studentId hp
    rw [addAttendance_existing hid ha hlo hhi hs hp,
      if_pos (validate_with_attendance hpv hlo hhi now)]
    refine ⟨_, rfl, rfl, ?_, hpid, rfl, fun h => by simp at h⟩
    exact find?_replaceFirst_hit _ _ _ (by simpa using Performance.findOne_studentId hp)
      (by unfold Performance.findOne at hp; simp [hp])

/-- C11 at a concrete input: attendance 90 for a freshly created student. -/
theorem addAttendance_records_value_witness :
    Store.empty.performances = [] ∧ (0 : ℚ) ≤ 90 ∧ (90 : ℚ) ≤ 100 ∧
    (Student.findById (run Store.empty [(1, Request.createStudent aliceRequest)]) 0).isSome
      = true ∧
    ∃ q, (addAttendance ⟨.oid 0, .num 90⟩ 2
        (run Store.empty [(1, Request.createStudent aliceRequest)])).1.status = 200 ∧
      (addAttendance ⟨.oid 0, .num 90⟩ 2
        (run Store.empty [(1, Request.createStudent aliceRequest)])).1.data = some q ∧
      Performance.findOne (addAttendance ⟨.oid 0, .num 90⟩ 2
        (run Store.empty [(1, Request.createStudent aliceRequest)])).2 0 = some q ∧
      q.studentId = 0 ∧ q.attendancePercentage = 90 ∧
      (Performance.findOne (run Store.empty [(1, Request.createStudent aliceRequest)]) 0
          = none →
        q.marks = [] ∧ q.averageMarks = 0 ∧ q.performanceStatus = "Poor") :=
  ⟨rfl, by norm_num, by norm_num, rfl,
   addAttendance_records_value Store.empty rfl [(1, Request.createStudent aliceRequest)]
    ⟨.oid 0, .num 90⟩ 2 0 90 rfl rfl (by norm_num) (by norm_num) rfl⟩

/-- C12: `addAttendance` fails with 400, without data and leaving the store as it
was, whenever the submitted value is not a number in `[0, 100]` (missing, null, of
another type, or out of range); and it does not fail with 400 when the value is a
number `a` with `0 ≤ a ≤ 100`. -/
theorem addAttendance_validates_value (req : AttendanceRequest) (now : Nat) (db : Store) :
    ((¬ ∃ a : ℚ, req.attendancePercentage = JsVal.num a ∧ 0 ≤ a ∧ a ≤ 100) →
      (addAttendance req now db).1.status = 400 ∧
      (addAttendance req now db).1.success = false ∧
      (addAttendance req now db).1.data = none ∧
      (addAttendance req now db).2 = db) ∧
    ((∃ a : ℚ, req.attendancePercentage = JsVal.num a ∧ 0 ≤ a ∧ a ≤ 100) →
      (addAttendance req now db).1.status ≠ 400) := by
  obtain ⟨sid, v⟩ := req
  cases v with
  | num a =>
    by_cases hr : a < 0 ∨ a > 100
    · refine ⟨fun _ => by simp [addAttendance, hr], ?_⟩
      rintro ⟨b, hb, h0, h1⟩
      simp only [JsVal.num.injEq] at hb
      subst hb
      rcases hr with h | h
      · exact absurd h0 (not_le.mpr h)
      · exact absurd h1 (not_le.mpr h)
    · refine ⟨fun h => ?_, fun _ => ?_⟩
      · push_neg at hr
        exact absurd ⟨a, rfl, hr.1, hr.2⟩ h
      · cases sid with
        | malformed => simp [addAttendance, hr]
        | oid id =>
          cases hs : Student.findById db id with
          | none => simp [addAttendance, hr, hs]
          | some s =>
            cases hp : Performance.findOne db id with
            | none =>
              simp only [addAttendance, hr, if_false, hs, hp, Performance.create]
              split_ifs <;> simp
            | some p =>
              simp only [addAttendance, hr, if_false, hs, hp, Performance.save]
              split_ifs <;> simp
  | _ =>
    refine ⟨fun _ => by simp [addAttendance], ?_⟩
    rintro ⟨b, hb, -, -⟩
    simp at hb

/-- C12 at concrete inputs: 150, a missing value, `null` and the text `"85"` are
rejected with 400 and leave the store as it was; 0 and 100 are accepted with 200. -/
theorem addAttendance_validates_value_witness :
    ((addAttendance ⟨.oid 0, .num 150⟩ 5 mathStore).1.status = 400 ∧
      (addAttendance ⟨.oid 0, .num 150⟩ 5 mathStore).2 = mathStore) ∧
    ((addAttendance ⟨.oid 0, .undefined⟩ 5 mathStore).1.status = 400 ∧
      (addAttendance ⟨.oid 0, .undefined⟩ 5 mathStore).2 = mathStore) ∧
    ((addAttendance ⟨.oid 0, .null⟩ 5 mathStore).1.status = 400 ∧
      (addAttendance ⟨.oid 0, .null⟩ 5 mathStore).2 = mathStore) ∧
    ((addAttendance ⟨.oid 0, .str "85"⟩ 5 mathStore).1.status = 400 ∧
      (addAttendance ⟨.oid 0, .str "85"⟩ 5 mathStore).2 = mathStore) ∧
    (addAttendance ⟨.oid 0, .num 0⟩ 5 mathStore).1.status ≠ 400 ∧
    (addAttendance ⟨.oid 0, .num 100⟩ 5 mathStore).1.status ≠ 400 :=
  ⟨(fun h => ⟨h.1, h.2.2.2⟩)
      ((addAttendance_validates_value ⟨.oid 0, .num 150⟩ 5 mathStore).1 (by
        rintro ⟨a, ha, -, h1⟩
        simp only [JsVal.num.injEq] at ha
        rw [← ha] at h1
        norm_num at h1)),
   (fun h => ⟨h.1, h.2.2.2⟩)
      ((addAttendance_validates_value ⟨.oid 0, .undefined⟩ 5 mathStore).1 (by simp)),
   (fun h => ⟨h.1, h.2.2.2⟩)
      ((addAttendance_validates_value ⟨.oid 0, .null⟩ 5 mathStore).1 (by simp)),
   (fun h => ⟨h.1, h.2.2.2⟩)
      ((addAttendance_validates_value ⟨.oid 0, .str "85"⟩ 5 mathStore).1 (by simp)),
   (addAttendance_validates_value ⟨.oid 0, .num 0⟩ 5 mathStore).2
      ⟨0, rfl, by norm_num, by norm_num⟩,
   (addAttendance_validates_value ⟨.oid 0, .num 100⟩ 5 mathStore).2
      ⟨100, rfl, by norm_num, by norm_num⟩⟩

/-! ## Unknown students -/

/-- C13, the claim fails at an identifier that is not well formed: with a marks
object, and with a valid attendance value, the response is 500 and not 404. -/
theorem malformed_identifier_is_not_404 :
    (addMarks ⟨.malformed, some [("math", .num 80)]⟩ 5 aliceStore).1.status = 500 ∧
    (addMarks ⟨.malformed, some [("math", .num 80)]⟩ 5 aliceStore).1.status ≠ 404 ∧
    (addAttendance ⟨.malformed, .num 80⟩ 5 aliceStore).1.status = 500 ∧
    (addAttendance ⟨.malformed, .num 80⟩ 5 aliceStore).1.status ≠ 404 := by
  refine ⟨rfl, by simp [addMarks], ?_, ?_⟩
  · simp [addAttendance]
    norm_num
  · simp [addAttendance]
    norm_num

/-- C13 as amended: for a well-formed identifier that is not the identifier of a stored
student, `addMarks` with a marks object and `addAttendance` with a number in `[0, 100]`
respond 404 `Student not found` and leave the store as it was; for an identifier that
is not well formed they respond 500 and leave the store as it was. -/
theorem unknown_student_not_found (mreq : MarksRequest) (areq : AttendanceRequest)
    (now : Nat) (db : Store) (marks : List (String × JsVal)) (a : ℚ)
    (hm : mreq.marks = some marks)
    (ha : areq.attendancePercentage = .num a) (hlo : 0 ≤ a) (hhi : a ≤ 100) :
    (∀ id, mreq.studentId = .oid id → Student.findById db id = none →
      addMarks mreq now db = (⟨404, false, some "Student not found", none⟩, db)) ∧
    (∀ id, areq.studentId = .oid id → Student.findById db id = none →
      addAttendance areq now db = (⟨404, false, some "Student not found", none⟩, db)) ∧
    (mreq.studentId = .malformed →
      addMarks mreq now db = (⟨500, false, some "Error updating marks", none⟩, db)) ∧
    (areq.studentId = .malformed →
      addAttendance areq now db =
        (⟨500, false, some "Error updating attendance", none⟩, db)) := by
  obtain ⟨msid, mm⟩ := mreq
  obtain ⟨asid, av⟩ := areq
  simp only at hm ha
  subst hm ha
  have hr : ¬ (a < 0 ∨ a > 100) := by push_neg; exact ⟨hlo, hhi⟩
  refine ⟨?_, ?_, ?_, ?_⟩
  · intro id hid hnone
    simp only at hid
    subst hid
    simp [addMarks, hnone]
  · intro id hid hnone
    simp only at hid
    subst hid
    simp [addAttendance, hr, hnone]
  · intro hid
    simp only at hid
    subst hid
    simp [addMarks]
  · intro hid
    simp only at hid
    subst hid
    simp [addAttendance, hr]

/-- C13 as amended, at a concrete input: identifier `7` in a store whose only student
has identifier `0`. -/
theorem unknown_student_not_found_witness :
    (0 : ℚ) ≤ 80 ∧ (80 : ℚ) ≤ 100 ∧ Student.findById aliceStore 7 = none ∧
    addMarks ⟨.oid 7, some [("math", .num 80)]⟩ 5 aliceStore =
      (⟨404, false, some "Student not found", none⟩, aliceStore) ∧
    addAttendance ⟨.oid 7, .num 80⟩ 5 aliceStore =
      (⟨404, false, some "Student not found", none⟩, aliceStore) :=
  ⟨by norm_num, by norm_num, rfl,
   (unknown_student_not_found ⟨.oid 7, some [("math", .num 80)]⟩ ⟨.oid 7, .num 80⟩ 5
      aliceStore [("math", .num 80)] 80 rfl rfl (by norm_num) (by norm_num)).1 7 rfl rfl,
   (unknown_student_not_found ⟨.oid 7, some [("math", .num 80)]⟩ ⟨.oid 7, .num 80⟩ 5
      aliceStore [("math", .num 80)] 80 rfl rfl (by norm_num) (by norm_num)).2.1 7 rfl rfl⟩

/-! ## One record per student -/

theorem filter_length_le_one_of_nodup (l : List Performance)
    (h : (l.map (fun r => r.studentId)).Nodup) (id : ObjectId) :
    (l.filter (fun r => r.studentId == id)).length ≤ 1 := by
  induction l with
  | nil => simp
  | cons x xs ih =>
    simp only [List.map_cons, List.nodup_cons] at h
    by_cases hx : x.studentId = id
    · have hnil : xs.filter (fun r => r.studentId == id) = [] := by
        rw [List.filter_eq_nil_iff]
        intro r hr hrid
        apply h.1
        rw [hx]
        exact List.mem_map.mpr ⟨r, hr, by simpa using hrid⟩
      simp [List.filter_cons, hx, hnil]
    · have hx' : (x.studentId == id) = false := by simpa using hx
      simp only [List.filter_cons, hx', Bool.false_eq_true, if_false]
      exact ih h.2

/-- C14: in every state reached from a store without performance records by any
sequence of requests there is at most one record per student identifier; and one
request either leaves the sequence of the records' student identifiers as it was
(a record is changed in place) or appends one identifier that had no record. -/
theorem one_record_per_student (db0 : Store) (h0 : db0.performances = [])
    (reqs : List (Nat × Request)) :
    (∀ id, ((run db0 reqs).performances.filter (fun r => r.studentId == id)).length ≤ 1) ∧
    ((run db0 reqs).performances.map (fun r => r.studentId)).Nodup ∧
    (∀ (db : Store) (now : Nat) (req : Request),
      (step db now req).performances.map (fun r => r.studentId) =
          db.performances.map (fun r => r.studentId) ∨
      ∃ id, Performance.findOne db id = none ∧
        (step db now req).performances.map (fun r => r.studentId) =
          db.performances.map (fun r => r.studentId) ++ [id]) := by
  have hwf := run_wellFormed reqs db0 (wellFormed_of_no_records h0)
  refine ⟨filter_length_le_one_of_nodup _ hwf.2, hwf.2, ?_⟩
  intro db now req
  rcases step_cases db now req with ⟨hp, -⟩ | ⟨id, p, q, -, -, -, hq, -, hperf⟩ |
      ⟨id, q, -, -, hp, hq, -, hperf⟩
  · left; rw [hp]
  · left; rw [hperf, map_studentId_replaceFirst id q _ hq]
  · right
    refine ⟨id, hp, ?_⟩
    rw [hperf, List.map_append]
    simp [hq]

/-- C14 at a concrete input: a student is created and two marks submissions follow. -/
theorem one_record_per_student_witness :
    Store.empty.performances = [] ∧
    (∀ id, ((run Store.empty twoSubmissions).performances.filter
      (fun r => r.studentId == id)).length ≤ 1) ∧
    ((run Store.empty twoSubmissions).performances.map (fun r => r.studentId)).Nodup :=
  ⟨rfl, (one_record_per_student Store.empty rfl twoSubmissions).1,
    (one_record_per_student Store.empty rfl twoSubmissions).2.1⟩

/-! ## The attendance predicate and the order of the statuses -/

/-- C15: `isLowAttendance(a, t)` is true iff `a < t`; with the threshold omitted it is
`isLowAttendance(a, 75)`; it is false at `(75, 75)` and true at `(74.99, 75)`. -/
theorem isLowAttendance_strict :
    (∀ a t : ℚ, isLowAttendance a t = true ↔ a < t) ∧
    (∀ a : ℚ, isLowAttendanceDefault a = isLowAttendance a 75) ∧
    (∀ a : ℚ, isLowAttendanceDefault a = true ↔ a < 75) ∧
    isLowAttendance 75 75 = false ∧
    isLowAttendance (7499 / 100) 75 = true := by
  refine ⟨fun a t => by simp [isLowAttendance], fun a => rfl,
    fun a => by simp [isLowAttendanceDefault, isLowAttendance], ?_, ?_⟩
  · simp [isLowAttendance]
  · simp [isLowAttendance]
    norm_num

theorem statusRank_classify (x : ℚ) :
    statusRank (classifyPerformance x) =
      some (if x ≥ 90 then 3 else if x ≥ 75 then 2 else if x ≥ 60 then 1 else 0) := by
  unfold classifyPerformance
  split_ifs <;> simp [statusRank]

/-- C16: with the ranks of `Poor < Average < Good < Excellent`, `x ≤ y` implies that
the rank of `classifyPerformance x` is at most the rank of `classifyPerformance y`. -/
theorem classifyPerformance_monotone (x y : ℚ) (hxy : x ≤ y) :
    ∃ i j, statusRank (classifyPerformance x) = some i ∧
      statusRank (classifyPerformance y) = some j ∧ i ≤ j := by
  refine ⟨_, _, statusRank_classify x, statusRank_classify y, ?_⟩
  split_ifs <;> first | omega | (exfalso; linarith)

/-- C16 at a concrete input: 74.99 and 75. -/
theorem classifyPerformance_monotone_witness :
    (7499 / 100 : ℚ) ≤ 75 ∧
    ∃ i j, statusRank (classifyPerformance (7499 / 100)) = some i ∧
      statusRank (classifyPerformance 75) = some j ∧ i ≤ j :=
  ⟨by norm_num, classifyPerformance_monotone (7499 / 100) 75 (by norm_num)⟩

/-! ## The performance summary -/

/-- C17: for an existing student without performance record, `getPerformanceSummary`
responds 200 with the student's identity fields and the payload with empty marks,
average 0, status `No data available` and `hasData = false`. -/
theorem getPerformanceSummary_without_record (db : Store) (id : ObjectId) (s : Student)
    (hs : Student.findById db id = some s) (hnone : Performance.findOne db id = none) :
    getPerformanceSummary (.oid id) db =
      ⟨200, true, none, some
        { student := ⟨id, s.name, s.rollNumber, s.studentClass, s.sectionName⟩,
          performance :=
            { marks := [], averageMarks := 0, attendancePercentage := 0,
              performanceStatus := "No data available", lowAttendance := none,
              lastUpdated := none, hasData := false } }⟩ := by
  have hsid : s._id = id := by
    have := List.find?_some hs
    simpa using this
  simp only [getPerformanceSummary, hs, hnone, hsid]

/-- C17 at a concrete input: the freshly created student. -/
theorem getPerformanceSummary_without_record_witness :
    Student.findById aliceStore 0 = some ⟨0, "Alice", "R1", "10th", "A", 1⟩ ∧
    Performance.findOne aliceStore 0 = none ∧
    getPerformanceSummary (.oid 0) aliceStore =
      ⟨200, true, none, some
        { student := ⟨0, "Alice", "R1", "10th", "A"⟩,
          performance :=
            { marks := [], averageMarks := 0, attendancePercentage := 0,
              performanceStatus := "No data available", lowAttendance := none,
              lastUpdated := none, hasData := false } }⟩ :=
  ⟨rfl, rfl,
   getPerformanceSummary_without_record aliceStore 0 ⟨0, "Alice", "R1", "10th", "A", 1⟩
    rfl rfl⟩

/-- C18: for an existing student with a performance record, `getPerformanceSummary`
responds 200 with `hasData = true`, the record's marks, average, attendance, status
and `lastUpdated`, and `lowAttendance = (attendancePercentage < 75)`; the handler takes
no threshold. -/
theorem getPerformanceSummary_with_record (db : Store) (id : ObjectId) (s : Student)
    (p : Performance)
    (hs : Student.findById db id = some s) (hp : Performance.findOne db id = some p) :
    getPerformanceSummary (.oid id) db =
      ⟨200, true, none, some
        { student := ⟨id, s.name, s.rollNumber, s.studentClass, s.sectionName⟩,
          performance :=
            { marks := p.marks, averageMarks := p.averageMarks,
              attendancePercentage := p.attendancePercentage,
              performanceStatus := p.performanceStatus,
              lowAttendance := some (decide (p.attendancePercentage < 75)),
              lastUpdated := some p.lastUpdated, hasData := true } }⟩ := by
  have hsid : s._id = id := by
    have := List.find?_some hs
    simpa using this
  simp only [getPerformanceSummary, hs, hp, hsid, isLowAttendanceDefault, isLowAttendance]

/-- C18 at a concrete input: the student holding `{math: 80}` and attendance 0. -/
theorem getPerformanceSummary_with_record_witness :
    Student.findById mathStore 0 = some ⟨0, "Alice", "R1", "10th", "A", 1⟩ ∧
    Performance.findOne mathStore 0 = some mathRecord ∧
    getPerformanceSummary (.oid 0) mathStore =
      ⟨200, true, none, some
        { student := ⟨0, "Alice", "R1", "10th", "A"⟩,
          performance :=
            { marks := mathRecord.marks, averageMarks := mathRecord.averageMarks,
              attendancePercentage := mathRecord.attendancePercentage,
              performanceStatus := mathRecord.performanceStatus,
              lowAttendance := some (decide (mathRecord.attendancePercentage < 75)),
              lastUpdated := some mathRecord.lastUpdated, hasData := true } }⟩ :=
  ⟨rfl, rfl,
   getPerformanceSummary_with_record mathStore 0 ⟨0, "Alice", "R1", "10th", "A", 1⟩
    mathRecord rfl rfl⟩

/-! ## The threshold of the low-attendance listing -/

theorem thresholdOrDefault_range {t : ℚ} (h0 : 0 ≤ t) (h1 : t ≤ 100) :
    ¬ (thresholdOrDefault (some t) < 0 ∨ thresholdOrDefault (some t) > 100) := by
  unfold thresholdOrDefault
  simp only
  split_ifs
  · norm_num
  · push_neg; exact ⟨h0, h1⟩

/-- C19: for a supplied threshold `t` with `t < 0` or `t > 100`,
`getLowAttendanceStudents` responds 400 with `success = false` and no data; for a
supplied `t` with `0 ≤ t ≤ 100` the response is not 400. -/
theorem getLowAttendanceStudents_validates_threshold (t : ℚ) (db : Store) :
    ((t < 0 ∨ t > 100) →
      getLowAttendanceStudents (some t) db =
        ⟨400, false, some "Threshold must be between 0 and 100", none⟩) ∧
    ((0 ≤ t ∧ t ≤ 100) → (getLowAttendanceStudents (some t) db).status ≠ 400) := by
  constructor
  · intro h
    have ht : t ≠ 0 := by
      rintro rfl
      rcases h with h | h <;> norm_num at h
    simp [getLowAttendanceStudents, thresholdOrDefault, ht, h]
  · rintro ⟨h0, h1⟩
    have hr := thresholdOrDefault_range h0 h1
    simp only [getLowAttendanceStudents, hr, if_false]
    split <;> simp

/-- C19 at concrete inputs: 150 and −1 are rejected, 0 and 100 are not. -/
theorem getLowAttendanceStudents_validates_threshold_witness :
    getLowAttendanceStudents (some 150) lowStore =
      ⟨400, false, some "Threshold must be between 0 and 100", none⟩ ∧
    getLowAttendanceStudents (some (-1)) lowStore =
      ⟨400, false, some "Threshold must be between 0 and 100", none⟩ ∧
    (getLowAttendanceStudents (some 0) lowStore).status ≠ 400 ∧
    (getLowAttendanceStudents (some 100) lowStore).status ≠ 400 :=
  ⟨(getLowAttendanceStudents_validates_threshold 150 lowStore).1 (Or.inr (by norm_num)),
   (getLowAttendanceStudents_validates_threshold (-1) lowStore).1 (Or.inl (by norm_num)),
   (getLowAttendanceStudents_validates_threshold 0 lowStore).2 ⟨by norm_num, by norm_num⟩,
   (getLowAttendanceStudents_validates_threshold 100 lowStore).2 ⟨by norm_num, by norm_num⟩⟩

theorem getLowAttendanceStudents_absent (db : Store) :
    getLowAttendanceStudents none db = getLowAttendanceStudents (some 75) db := by
  have h : thresholdOrDefault (some 75) = 75 := by
    simp [thresholdOrDefault]
  simp only [getLowAttendanceStudents, h]
  rfl

/-- C20: with the threshold absent, `getLowAttendanceStudents` gives the response it
gives for the supplied threshold 75; in every state reached from a store without
performance records this response is 200, echoes 75, lists in order exactly the
records with `attendancePercentage < 75`, and its `count` is the length of `data`. -/
theorem getLowAttendanceStudents_default (db0 : Store) (h0 : db0.performances = [])
    (reqs : List (Nat × Request)) :
    (∀ db, getLowAttendanceStudents none db = getLowAttendanceStudents (some 75) db) ∧
    ∃ entries,
      getLowAttendanceStudents none (run db0 reqs) =
        ⟨200, true, none, some ⟨75, entries.length, entries⟩⟩ ∧
      entries.map (fun e => (e.student.id, e.attendancePercentage, e.performanceStatus)) =
        ((run db0 reqs).performances.filter
          (fun p => decide (p.attendancePercentage < 75))).map
          (fun r => (r.studentId, r.attendancePercentage, r.performanceStatus)) := by
  have hwf := run_wellFormed reqs db0 (wellFormed_of_no_records h0)
  refine ⟨getLowAttendanceStudents_absent, ?_⟩
  obtain ⟨entries, he, hmap⟩ := getLowAttendanceStudents_of_pos 75 (by norm_num) (by norm_num)
    (run db0 reqs) (fun r hr => (hwf.1 r hr).2)
  exact ⟨entries, by rw [getLowAttendanceStudents_absent, he], hmap⟩

/-- C20 at a concrete input: a student is created and two marks submissions follow. -/
theorem getLowAttendanceStudents_default_witness :
    Store.empty.performances = [] ∧
    ∃ entries,
      getLowAttendanceStudents none (run Store.empty twoSubmissions) =
        ⟨200, true, none, some ⟨75, entries.length, entries⟩⟩ ∧
      entries.map (fun e => (e.student.id, e.attendancePercentage, e.performanceStatus)) =
        ((run Store.empty twoSubmissions).performances.filter
          (fun p => decide (p.attendancePercentage < 75))).map
          (fun r => (r.studentId, r.attendancePercentage, r.performanceStatus)) :=
  ⟨rfl, (getLowAttendanceStudents_default Store.empty rfl twoSubmissions).2⟩

/-! ## The student collection -/

theorem dropWhile_rdropWhile_dropWhile {α : Type} (p : α → Bool) (l : List α) :
    List.dropWhile p (List.rdropWhile p (List.dropWhile p l)) =
      List.rdropWhile p (List.dropWhile p l) := by
  have ha : List.dropWhile p (List.dropWhile p l) = List.dropWhile p l :=
    List.dropWhile_idempotent p l
  obtain ⟨t, ht⟩ := List.rdropWhile_prefix p (List.dropWhile p l)
  cases hb : List.rdropWhile p (List.dropWhile p l) with
  | nil => rfl
  | cons x xs =>
    rw [hb] at ht
    have hx : ¬ p x = true := by
      intro hpx
      rw [← ht] at ha
      simp only [List.cons_append, List.dropWhile_cons, hpx, if_true] at ha
      have hlen := (List.dropWhile_suffix p (l := xs ++ t)).length_le
      rw [ha] at hlen
      simp at hlen
    simp [List.dropWhile_cons, hx]

theorem trim_trim (s : String) : trim (trim s) = trim s := by
  have h := dropWhile_rdropWhile_dropWhile isWhiteSpace s.data
  unfold List.rdropWhile at h
  have h2 := List.rdropWhile_idempotent isWhiteSpace
    (List.dropWhile isWhiteSpace s.data)
  unfold List.rdropWhile at h2
  show String.mk _ = String.mk _
  congr 1
  show ((List.dropWhile isWhiteSpace
      ((List.dropWhile isWhiteSpace s.data).reverse.dropWhile
        isWhiteSpace).reverse).reverse.dropWhile isWhiteSpace).reverse = _
  rw [h]
  exact h2

theorem createStudent_students (req : StudentRequest) (now : Nat) (db : Store) :
    (createStudent req now db).2 = db ∨
    ∃ s r, s.rollNumber = trim r ∧ (∀ x ∈ db.students, x.rollNumber ≠ s.rollNumber) ∧
      (createStudent req now db).2.students = db.students ++ [s] := by
  unfold createStudent
  split_ifs
  · left; rfl
  · split
    · left; rfl
    · split
      · rename_i student db' hc
        unfold Student.create at hc
        simp only at hc
        split_ifs at hc with h1 h2
        simp only [Option.some.injEq, Prod.mk.injEq] at hc
        right
        refine ⟨student, req.rollNumber.getD "", ?_, ?_, ?_⟩
        · rw [← hc.1]
        · intro x hx hxs
          apply h2
          rw [List.any_eq_true]
          refine ⟨x, hx, ?_⟩
          rw [← hc.1] at hxs
          simpa using hxs
        · rw [← hc.2, hc.1]
      · left; rfl

theorem step_students (db : Store) (now : Nat) (req : Request) :
    (step db now req).students = db.students ∨
    ∃ s r, s.rollNumber = trim r ∧ (∀ x ∈ db.students, x.rollNumber ≠ s.rollNumber) ∧
      (step db now req).students = db.students ++ [s] := by
  cases req with
  | createStudent r =>
    simp only [step]
    rcases createStudent_students r now db with h | h
    · left; rw [h]
    · right; exact h
  | addMarks r =>
    left
    simp only [step]
    rcases addMarks_store r now db with h | ⟨_, _, _, -, -, -, h⟩ | ⟨_, _, -, -, -, h⟩ <;> rw [h]
  | addAttendance r =>
    left
    simp only [step]
    rcases addAttendance_store r now db with h | ⟨_, _, _, -, -, -, h⟩ | ⟨_, _, -, -, -, h⟩ <;>
      rw [h]

theorem run_students (reqs : List (Nat × Request)) (db : Store)
    (h : (∀ s ∈ db.students, trim s.rollNumber = s.rollNumber) ∧
      (db.students.map (fun s => s.rollNumber)).Nodup) :
    (∀ s ∈ (run db reqs).students, trim s.rollNumber = s.rollNumber) ∧
      ((run db reqs).students.map (fun s => s.rollNumber)).Nodup := by
  induction reqs generalizing db with
  | nil => exact h
  | cons r rest ih =>
    apply ih
    rcases step_students db r.1 r.2 with e | ⟨s, x, hs, hfresh, e⟩
    · rw [e]; exact h
    · rw [e]
      refine ⟨?_, ?_⟩
      · intro y hy
        rcases List.mem_append.mp hy with hold | hnew
        · exact h.1 y hold
        · rw [List.mem_singleton] at hnew
          rw [hnew, hs, trim_trim]
      · rw [List.map_append, List.nodup_append]
        refine ⟨h.2, by simp, ?_⟩
        intro a ha ha'
        simp only [List.map_cons, List.map_nil, List.mem_singleton] at ha'
        obtain ⟨y, hy, hya⟩ := List.mem_map.mp ha
        exact hfresh y hy (by rw [hya, ha'])

/-- C21: in every state reached from a store without students, no two stored students
share a roll number; and a creation request whose four fields are present and whose
roll number is the roll number of a stored student gets 400 `already exists` and
leaves the store as it was. -/
theorem createStudent_rejects_duplicate_roll (db0 : Store) (h0 : db0.students = [])
    (reqs : List (Nat × Request)) :
    ((run db0 reqs).students.map (fun s => s.rollNumber)).Nodup ∧
    ∀ (req : StudentRequest) (now : Nat) (name studentClass sectionName : String)
      (s : Student),
      req.name = some name → name ≠ "" →
      req.studentClass = some studentClass → studentClass ≠ "" →
      req.sectionName = some sectionName → sectionName ≠ "" →
      s ∈ (run db0 reqs).students → req.rollNumber = some s.rollNumber →
      s.rollNumber ≠ "" →
      createStudent req now (run db0 reqs) =
        (⟨400, false, some "Student with this roll number already exists", none⟩,
          run db0 reqs) := by
  have hinv := run_students reqs db0 (by simp [h0])
  refine ⟨hinv.2, ?_⟩
  intro req now name studentClass sectionName s hn hn0 hc hc0 hsec hsec0 hs hr hr0
  have hfound : ∃ x, Student.findOne (run db0 reqs) (req.rollNumber.getD "") = some x := by
    rw [hr, Option.getD_some, Student.findOne, hinv.1 s hs]
    cases hf : List.find? (fun x => x.rollNumber == s.rollNumber) (run db0 reqs).students with
    | some x => exact ⟨x, rfl⟩
    | none =>
      rw [List.find?_eq_none] at hf
      exact absurd (by simp) (hf s hs)
  obtain ⟨x, hx⟩ := hfound
  have hfalsy : (falsy req.name || falsy req.rollNumber || falsy req.studentClass ||
      falsy req.sectionName) = false := by
    simp [hn, hr, hc, hsec, falsy, hn0, hr0, hc0, hsec0]
  simp only [createStudent, hfalsy, Bool.false_eq_true, if_false, hx]

/-- C21 at a concrete input: the creation request of a stored student is sent again. -/
theorem createStudent_rejects_duplicate_roll_witness :
    Store.empty.students = [] ∧
    ((run Store.empty [(1, Request.createStudent aliceRequest)]).students.map
      (fun s => s.rollNumber)).Nodup ∧
    createStudent aliceRequest 2 (run Store.empty [(1, Request.createStudent aliceRequest)]) =
      (⟨400, false, some "Student with this roll number already exists", none⟩,
        run Store.empty [(1, Request.createStudent aliceRequest)]) :=
  ⟨rfl,
   (createStudent_rejects_duplicate_roll Store.empty rfl
      [(1, Request.createStudent aliceRequest)]).1,
   (createStudent_rejects_duplicate_roll Store.empty rfl
      [(1, Request.createStudent aliceRequest)]).2 aliceRequest 2 "Alice" "10th" "a"
      ⟨0, "Alice", "R1", "10th", "A", 1⟩ rfl (by decide) rfl (by decide) rfl (by decide)
      (by simp [run, step, createStudent_alice, aliceStore]) rfl (by decide)⟩

/-! ## The message of a rejected marks submission -/

theorem firstInvalidSubject_append {pre post : List (String × JsVal)} {subject : String}
    {v : JsVal}
    (hpre : ∀ e ∈ pre, ∃ x : ℚ, e.2 = JsVal.num x ∧ 0 ≤ x ∧ x ≤ 100)
    (hbad : ∀ x : ℚ, v = JsVal.num x → x < 0 ∨ 100 < x) :
    firstInvalidSubject (pre ++ (subject, v) :: post) = some subject := by
  have hnone : List.find? (fun e => invalidMark e.2) pre = none := by
    have := firstInvalidSubject_of_valid hpre
    simpa [firstInvalidSubject] using this
  have hinv : invalidMark v = true := by
    cases v with
    | num x =>
      rcases hbad x rfl with h | h
      · simp [invalidMark, h]
      · simp [invalidMark, h]
    | _ => rfl
  simp [firstInvalidSubject, List.find?_append, hnone, hinv]

/-- C22: for an existing student and a marks object whose first entry, in entry
order, holding a value that is not a number in `[0, 100]` has subject `s`, `addMarks`
responds 400 with the message `Invalid marks for s. Marks must be a number between 0
and 100.` and leaves the store as it was. -/
theorem addMarks_names_first_invalid_subject (req : MarksRequest) (now : Nat) (db : Store)
    (id : ObjectId) (pre post : List (String × JsVal)) (subject : String) (v : JsVal)
    (hid : req.studentId = .oid id)
    (hm : req.marks = some (pre ++ (subject, v) :: post))
    (hs : (Student.findById db id).isSome = true)
    (hpre : ∀ e ∈ pre, ∃ x : ℚ, e.2 = JsVal.num x ∧ 0 ≤ x ∧ x ≤ 100)
    (hbad : ∀ x : ℚ, v = JsVal.num x → x < 0 ∨ 100 < x) :
    addMarks req now db =
      (⟨400, false,
        some ("Invalid marks for " ++ subject ++
          ". Marks must be a number between 0 and 100."), none⟩, db) := by
  have hf := @firstInvalidSubject_append pre post subject v hpre hbad
  obtain ⟨x, hx⟩ := Option.isSome_iff_exists.mp hs
  obtain ⟨sid, m⟩ := req
  simp only at hid hm
  subst hid hm
  simp only [addMarks, hx, hf]

/-- C22 at a concrete input: `{math: 90, science: 101, english: -1}`. -/
theorem addMarks_names_first_invalid_subject_witness :
    (Student.findById mathStore 0).isSome = true ∧
    addMarks ⟨.oid 0, some [("math", .num 90), ("science", .num 101), ("english", .num (-1))]⟩
        5 mathStore =
      (⟨400, false,
        some ("Invalid marks for " ++ "science" ++
          ". Marks must be a number between 0 and 100."), none⟩, mathStore) :=
  ⟨rfl,
   addMarks_names_first_invalid_subject
    ⟨.oid 0, some [("math", .num 90), ("science", .num 101), ("english", .num (-1))]⟩
    5 mathStore 0 [("math", .num 90)] [("english", .num (-1))] "science" (.num 101)
    rfl rfl rfl
    (by
      intro e he
      simp only [List.mem_singleton] at he
      subst he
      exact ⟨90, rfl, by norm_num, by norm_num⟩)
    (by
      intro x hx
      simp only [JsVal.num.injEq] at hx
      right
      rw [← hx]
      norm_num)⟩

/-! ## Looking a student up -/

/-- C23, the claim fails at an identifier that is not well formed: it is not the
identifier of a stored student, and the response is 500, not 404. -/
theorem getStudentById_malformed_is_not_404 :
    (getStudentById .malformed aliceStore).status = 500 ∧
    (getStudentById .malformed aliceStore).status ≠ 404 := by
  exact ⟨rfl, by decide⟩

/-- C23 as amended: for a well-formed identifier, `getStudentById` responds 404 with
`success = false` when no stored student has it, and 200 with a stored student whose
identifier is the requested one when some stored student has it; for an identifier
that is not well formed it responds 500. -/
theorem getStudentById_found_or_not (db : Store) (id : ObjectId) :
    ((∀ s ∈ db.students, s._id ≠ id) →
      getStudentById (.oid id) db = ⟨404, false, some "Student not found", none⟩) ∧
    ((∃ s ∈ db.students, s._id = id) →
      ∃ s ∈ db.students, s._id = id ∧
        getStudentById (.oid id) db = ⟨200, true, none, some s⟩) ∧
    getStudentById .malformed db = ⟨500, false, some "Error fetching student", none⟩ := by
  refine ⟨?_, ?_, rfl⟩
  · intro h
    have hnone : Student.findById db id = none := by
      unfold Student.findById
      rw [List.find?_eq_none]
      intro s hs
      simpa using h s hs
    simp only [getStudentById, hnone]
  · rintro ⟨s, hs, hsid⟩
    cases hf : Student.findById db id with
    | none =>
      unfold Student.findById at hf
      rw [List.find?_eq_none] at hf
      exact absurd (by simpa using hsid) (hf s hs)
    | some x =>
      refine ⟨x, List.mem_of_find?_eq_some hf, ?_, ?_⟩
      · have := List.find?_some hf
        simpa using this
      · simp only [getStudentById, hf]

/-- C23 as amended, at concrete inputs: identifiers `0` (stored) and `7` (not stored). -/
theorem getStudentById_found_or_not_witness :
    getStudentById (.oid 7) aliceStore = ⟨404, false, some "Student not found", none⟩ ∧
    ∃ s ∈ aliceStore.students, s._id = 0 ∧
      getStudentById (.oid 0) aliceStore = ⟨200, true, none, some s⟩ :=
  ⟨(getStudentById_found_or_not aliceStore 7).1 (by decide),
   (getStudentById_found_or_not aliceStore 0).2.1
    ⟨⟨0, "Alice", "R1", "10th", "A", 1⟩, by simp [aliceStore], rfl⟩⟩

/-! ## Rejected attendance values -/

theorem addAttendance_rejects_of_not_valid (req : AttendanceRequest) (now : Nat) (db : Store)
    (h : ¬ ∃ a : ℚ, req.attendancePercentage = JsVal.num a ∧ 0 ≤ a ∧ a ≤ 100) :
    (addAttendance req now db).1.status = 400 := by
  obtain ⟨sid, v⟩ := req
  cases v with
  | num a =>
    by_cases hr : a < 0 ∨ a > 100
    · simp [addAttendance, hr]
    · push_neg at hr
      exact absurd ⟨a, rfl, hr.1, hr.2⟩ h
  | _ => simp [addAttendance]

/-! ## The empty marks object -/

/-- C24: in every state reached from a store without performance records, `addMarks`
with the empty marks object for a student holding a record with marks `M` responds
200 and leaves a record with marks `M`, `averageMarks` 0 and status `Poor`. -/
theorem addMarks_empty_object (db0 : Store) (h0 : db0.performances = [])
    (reqs : List (Nat × Request)) (req : MarksRequest) (now : Nat) (id : ObjectId)
    (p : Performance)
    (hid : req.studentId = .oid id) (hm : req.marks = some [])
    (hp : Performance.findOne (run db0 reqs) id = some p) :
    firstInvalidSubject [] = none ∧
    ∃ q, (addMarks req now (run db0 reqs)).1.status = 200 ∧
      (addMarks req now (run db0 reqs)).1.data = some q ∧
      Performance.findOne (addMarks req now (run db0 reqs)).2 id = some q ∧
      q.marks = p.marks ∧ q.averageMarks = 0 ∧ q.performanceStatus = "Poor" ∧
      q.attendancePercentage = p.attendancePercentage := by
  have hwf := run_wellFormed reqs db0 (wellFormed_of_no_records h0)
  have hpid : p.studentId = id := Performance.findOne_studentId hp
  have hpw := hwf.1 p (Performance.findOne_mem hp)
  have hs : (Student.findById (run db0 reqs) id).isSome = true := by
    rw [← hpid]; exact hpw.2
  have hv : firstInvalidSubject [] = none := rfl
  have havg : calculateAverage (numericMarks []) = 0 := by simp [numericMarks, calculateAverage]
  have hcls : classifyPerformance 0 = "Poor" := by
    simp only [classifyPerformance]
    norm_num
  have hval : Performance.validate { p with
      marks := spread p.marks (numericMarks []),
      averageMarks := calculateAverage (numericMarks []),
      performanceStatus := classifyPerformance (calculateAverage (numericMarks [])),
      lastUpdated := now } = true := by
    have hpv := hpw.1
    rw [havg, hcls]
    simp only [Performance.validate, Bool.and_eq_true, decide_eq_true_eq] at hpv ⊢
    exact ⟨⟨⟨hpv.1.1.1, le_refl _⟩, by norm_num⟩, by simp⟩
  refine ⟨hv, ?_⟩
  rw [addMarks_existing hid hm hs hv hp, if_pos hval]
  refine ⟨_, rfl, rfl, ?_, rfl, havg, ?_, rfl⟩
  · exact find?_replaceFirst_hit _ _ _ (by simpa using hpid)
      (by unfold Performance.findOne at hp; simp [hp])
  · show classifyPerformance (calculateAverage (numericMarks [])) = "Poor"
    rw [havg, hcls]

/-- C24 at a concrete input: `{}` is submitted after `{math: 80}` and `{science: 90}`. -/
theorem addMarks_empty_object_witness :
    Store.empty.performances = [] ∧
    Performance.findOne (run Store.empty twoSubmissions) 0 =
      some ⟨0, [("math", 80), ("science", 90)], 0, 90, "Excellent", 3⟩ ∧
    ∃ q, (addMarks ⟨.oid 0, some []⟩ 4 (run Store.empty twoSubmissions)).1.status = 200 ∧
      (addMarks ⟨.oid 0, some []⟩ 4 (run Store.empty twoSubmissions)).1.data = some q ∧
      Performance.findOne (addMarks ⟨.oid 0, some []⟩ 4 (run Store.empty twoSubmissions)).2 0
        = some q ∧
      q.marks = [("math", 80), ("science", 90)] ∧ q.averageMarks = 0 ∧
      q.performanceStatus = "Poor" ∧ q.attendancePercentage = 0 :=
  ⟨rfl, by rw [run_twoSubmissions]; rfl,
   (addMarks_empty_object Store.empty rfl twoSubmissions ⟨.oid 0, some []⟩ 4 0
      ⟨0, [("math", 80), ("science", 90)], 0, 90, "Excellent", 3⟩ rfl rfl
      (by rw [run_twoSubmissions]; rfl)).2⟩

/-! ## The order of the checks -/

/-- C25, the claim fails at an identifier that is not well formed: no student exists
for it, the marks object holds an invalid value, and `addMarks` responds 500, not 404. -/
theorem addMarks_malformed_identifier_invalid_marks :
    (addMarks ⟨.malformed, some [("math", .num 150)]⟩ 5 aliceStore).1.status = 500 ∧
    (addMarks ⟨.malformed, some [("math", .num 150)]⟩ 5 aliceStore).1.status ≠ 404 := by
  refine ⟨rfl, by simp [addMarks]⟩

/-- C25 as amended: for a well-formed identifier of no stored student, `addMarks` with a
marks object holding an invalid value responds 404 and `addAttendance` with an invalid
value responds 400; for an identifier that is not well formed they respond 500 and
400. In `addMarks` the student lookup precedes the validation of the marks, in
`addAttendance` the validation of the value precedes the lookup. -/
theorem check_order_differs (db : Store) (now : Nat) (marks : List (String × JsVal))
    (e : String × JsVal) (v : JsVal)
    (he : e ∈ marks) (hbad : ∀ x : ℚ, e.2 = JsVal.num x → x < 0 ∨ 100 < x)
    (hv : ∀ x : ℚ, v = JsVal.num x → x < 0 ∨ 100 < x) :
    (∀ id, Student.findById db id = none →
      (addMarks ⟨.oid id, some marks⟩ now db).1.status = 404 ∧
      (addAttendance ⟨.oid id, v⟩ now db).1.status = 400) ∧
    (addMarks ⟨.malformed, some marks⟩ now db).1.status = 500 ∧
    (addAttendance ⟨.malformed, v⟩ now db).1.status = 400 ∧
    (∀ id, (Student.findById db id).isSome = true →
      (addMarks ⟨.oid id, some marks⟩ now db).1.status = 400) := by
  have hatt : ∀ sid, (addAttendance ⟨sid, v⟩ now db).1.status = 400 := by
    intro sid
    refine ((addAttendance_rejects_of_not_valid ⟨sid, v⟩ now db) ?_)
    rintro ⟨a, ha, h0, h1⟩
    rcases hv a ha with h | h
    · exact absurd h0 (not_le.mpr h)
    · exact absurd h1 (not_le.mpr h)
  refine ⟨fun id hnone => ⟨by simp [addMarks, hnone], hatt _⟩, by simp [addMarks], hatt _, ?_⟩
  intro id hs
  have hinv : invalidMark e.2 = true := by
    cases hq : e.2 with
    | num x =>
      rcases hbad x hq with h | h
      · simp [invalidMark, h]
      · simp [invalidMark, h]
    | _ => rfl
  obtain ⟨subject, hsub⟩ := firstInvalidSubject_of_mem he hinv
  obtain ⟨s, hs⟩ := Option.isSome_iff_exists.mp hs
  simp [addMarks, hs, hsub]

/-- C25 as amended, at a concrete input: identifier `7` in a store whose only student
has identifier `0`, marks `{math: 150}` and attendance 150. -/
theorem check_order_differs_witness :
    Student.findById aliceStore 7 = none ∧
    (addMarks ⟨.oid 7, some [("math", .num 150)]⟩ 5 aliceStore).1.status = 404 ∧
    (addAttendance ⟨.oid 7, .num 150⟩ 5 aliceStore).1.status = 400 :=
  ⟨rfl,
   (check_order_differs aliceStore 5 [("math", .num 150)] ("math", .num 150) (.num 150)
      (by simp)
      (by
        intro x hx
        simp only [JsVal.num.injEq] at hx
        right; rw [← hx]; norm_num)
      (by
        intro x hx
        simp only [JsVal.num.injEq] at hx
        right; rw [← hx]; norm_num)).1 7 rfl⟩

/-! ## The average stays within the schema bounds -/

/-- C26: on marks that are all numbers in `[0, 100]`, `calculateAverage` is in
`[0, 100]`; so for a marks object that passed the validation loop, the record `addMarks`
writes passes the schema validators whenever the stored attendance does (for a new
record, always), and the `averageMarks` of a record returned by `addMarks` is in
`[0, 100]`. -/
theorem calculateAverage_within_schema_bounds :
    (∀ marks : Marks, (∀ e ∈ marks, 0 ≤ e.2 ∧ e.2 ≤ 100) →
      0 ≤ calculateAverage marks ∧ calculateAverage marks ≤ 100) ∧
    (∀ payload : List (String × JsVal), firstInvalidSubject payload = none →
      (0 ≤ calculateAverage (numericMarks payload) ∧
        calculateAverage (numericMarks payload) ≤ 100) ∧
      (∀ (p : Performance) (now : Nat),
        Performance.validate { p with
          marks := spread p.marks (numericMarks payload),
          averageMarks := calculateAverage (numericMarks payload),
          performanceStatus := classifyPerformance (calculateAverage (numericMarks payload)),
          lastUpdated := now } = true ↔
        (0 ≤ p.attendancePercentage ∧ p.attendancePercentage ≤ 100)) ∧
      (∀ (id : ObjectId) (now : Nat),
        Performance.validate
          { studentId := id, marks := numericMarks payload, attendancePercentage := 0,
            averageMarks := calculateAverage (numericMarks payload),
            performanceStatus :=
              classifyPerformance (calculateAverage (numericMarks payload)),
            lastUpdated := now } = true)) ∧
    (∀ (req : MarksRequest) (now : Nat) (db : Store) (q : Performance),
      (addMarks req now db).1.status = 200 → (addMarks req now db).1.data = some q →
      0 ≤ q.averageMarks ∧ q.averageMarks ≤ 100) := by
  refine ⟨calculateAverage_bounds, ?_, ?_⟩
  · intro payload hv
    have hb := calculateAverage_bounds _
      (numericMarks_bounds (firstInvalidSubject_eq_none.mp hv))
    have he := classify_mem_enum (calculateAverage (numericMarks payload))
    refine ⟨hb, ?_, fun id now => validate_marks_record hv id now⟩
    intro p now
    simp only [Performance.validate, Bool.and_eq_true, decide_eq_true_eq]
    constructor
    · intro h; exact h.1.1.1
    · intro h; exact ⟨⟨⟨h, hb.1⟩, hb.2⟩, he⟩
  · intro req now db q hok hdata
    obtain ⟨id, marks, hid, hm, hs, hv⟩ := addMarks_inv hok
    have hb := calculateAverage_bounds _
      (numericMarks_bounds (firstInvalidSubject_eq_none.mp hv))
    cases hp : Performance.findOne db id with
    | some r =>
      rw [addMarks_existing hid hm hs hv hp] at hdata
      split_ifs at hdata
      simp only [Option.some.injEq] at hdata
      rw [← hdata]
      exact hb
    | none =>
      rw [addMarks_new hid hm hs hv hp] at hdata
      simp only [Option.some.injEq] at hdata
      rw [← hdata]
      exact hb

/-- C26 at a concrete input: the marks `{math: 0, science: 100}` and the record
returned for `{math: 80}`. -/
theorem calculateAverage_within_schema_bounds_witness :
    (0 ≤ calculateAverage [("math", 0), ("science", 100)] ∧
      calculateAverage [("math", 0), ("science", 100)] ≤ 100) ∧
    (0 ≤ mathRecord.averageMarks ∧ mathRecord.averageMarks ≤ 100) :=
  ⟨calculateAverage_within_schema_bounds.1 [("math", 0), ("science", 100)] (by
      intro e he
      simp only [List.mem_cons, List.mem_singleton, List.not_mem_nil, or_false] at he
      rcases he with rfl | rfl
      · exact ⟨le_refl _, by norm_num⟩
      · exact ⟨by norm_num, le_refl _⟩),
   calculateAverage_within_schema_bounds.2.2 mathRequest 2 aliceStore mathRecord
    (by rw [addMarks_mathRequest]) (by rw [addMarks_mathRequest])⟩

/-! ## Students without attendance submission -/

theorem step_keeps_zero_attendance (db : Store) (now : Nat) (req : Request) (id : ObjectId)
    (hreq : ∀ areq, req = Request.addAttendance areq → areq.studentId ≠ .oid id)
    (h : ∀ p ∈ db.performances, p.studentId = id → p.attendancePercentage = 0) :
    ∀ p ∈ (step db now req).performances, p.studentId = id → p.attendancePercentage = 0 := by
  intro p hmem hpid
  cases req with
  | createStudent r =>
    simp only [step, createStudent_performances] at hmem
    exact h p hmem hpid
  | addMarks r =>
    simp only [step] at hmem
    rcases addMarks_store r now db with e | ⟨id0, marks, p0, -, -, hp0, e⟩ |
        ⟨id0, marks, -, -, -, e⟩
    · rw [e] at hmem; exact h p hmem hpid
    · rw [e] at hmem
      rcases mem_replaceFirst hmem with rfl | hold
      · exact h p0 (Performance.findOne_mem hp0) hpid
      · exact h p hold hpid
    · rw [e] at hmem
      rcases List.mem_append.mp hmem with hold | hnew
      · exact h p hold hpid
      · rw [List.mem_singleton] at hnew
        rw [hnew]
  | addAttendance r =>
    simp only [step] at hmem
    have hne := hreq r rfl
    rcases addAttendance_store r now db with e | ⟨id0, a, p0, hid0, -, hp0, e⟩ |
        ⟨id0, a, hid0, -, -, e⟩
    · rw [e] at hmem; exact h p hmem hpid
    · rw [e] at hmem
      rcases mem_replaceFirst hmem with rfl | hold
      · exfalso
        apply hne
        rw [hid0]
        have hp0id : p0.studentId = id0 := Performance.findOne_studentId hp0
        have hq : p0.studentId = id := hpid
        rw [← hp0id, hq]
      · exact h p hold hpid
    · rw [e] at hmem
      rcases List.mem_append.mp hmem with hold | hnew
      · exact h p hold hpid
      · rw [List.mem_singleton] at hnew
        exfalso
        apply hne
        rw [hid0, ← hpid, hnew]

theorem run_keeps_zero_attendance (reqs : List (Nat × Request)) (db : Store) (id : ObjectId)
    (hno : ∀ r ∈ reqs, ∀ areq, r.2 = Request.addAttendance areq → areq.studentId ≠ .oid id)
    (h : ∀ p ∈ db.performances, p.studentId = id → p.attendancePercentage = 0) :
    ∀ p ∈ (run db reqs).performances, p.studentId = id → p.attendancePercentage = 0 := by
  induction reqs generalizing db with
  | nil => exact h
  | cons r rest ih =>
    apply ih _ (fun x hx => hno x (List.mem_cons_of_mem _ hx))
    exact step_keeps_zero_attendance db r.1 r.2 id (hno r (List.mem_cons_self _ _)) h

theorem entry_of_low_record {db : Store} {t : ℚ} {entries : List LowAttendanceEntry}
    (hmap : entries.map (fun e => (e.student.id, e.attendancePercentage, e.performanceStatus)) =
      (db.performances.filter (fun p => decide (p.attendancePercentage < t))).map
        (fun r => (r.studentId, r.attendancePercentage, r.performanceStatus)))
    {p : Performance} (hp : p ∈ db.performances) (hlow : p.attendancePercentage < t) :
    ∃ e ∈ entries, e.student.id = p.studentId ∧
      e.attendancePercentage = p.attendancePercentage ∧
      e.performanceStatus = p.performanceStatus := by
  have hmem : (p.studentId, p.attendancePercentage, p.performanceStatus) ∈
      entries.map (fun e => (e.student.id, e.attendancePercentage, e.performanceStatus)) := by
    rw [hmap]
    exact List.mem_map.mpr ⟨p, List.mem_filter.mpr ⟨hp, by simpa using hlow⟩, rfl⟩
  obtain ⟨e, he, heq⟩ := List.mem_map.mp hmem
  simp only [Prod.mk.injEq] at heq
  exact ⟨e, he, heq.1, heq.2.1, heq.2.2⟩

theorem record_of_entry {db : Store} {t : ℚ} {entries : List LowAttendanceEntry}
    (hmap : entries.map (fun e => (e.student.id, e.attendancePercentage, e.performanceStatus)) =
      (db.performances.filter (fun p => decide (p.attendancePercentage < t))).map
        (fun r => (r.studentId, r.attendancePercentage, r.performanceStatus)))
    {e : LowAttendanceEntry} (he : e ∈ entries) :
    ∃ r ∈ db.performances, r.attendancePercentage < t ∧ r.studentId = e.student.id := by
  have hmem : (e.student.id, e.attendancePercentage, e.performanceStatus) ∈
      (db.performances.filter (fun p => decide (p.attendancePercentage < t))).map
        (fun r => (r.studentId, r.attendancePercentage, r.performanceStatus)) := by
    rw [← hmap]
    exact List.mem_map.mpr ⟨e, he, rfl⟩
  obtain ⟨r, hr, heq⟩ := List.mem_map.mp hmem
  simp only [Prod.mk.injEq] at heq
  rw [List.mem_filter] at hr
  exact ⟨r, hr.1, by simpa using hr.2, heq.1⟩

/-- C27: in a state reached from a store without performance records by requests none
of which submits attendance for a student, the record of that student, if it has one,
has `attendancePercentage = 0`; the student is then listed by
`getLowAttendanceStudents` for every threshold `t` with `0 < t ≤ 100`, and its summary
has `lowAttendance = true`. -/
theorem marks_only_student_has_low_attendance (db0 : Store) (h0 : db0.performances = [])
    (reqs : List (Nat × Request)) (id : ObjectId) (p : Performance)
    (hno : ∀ r ∈ reqs, ∀ areq, r.2 = Request.addAttendance areq → areq.studentId ≠ .oid id)
    (hp : Performance.findOne (run db0 reqs) id = some p) :
    p.attendancePercentage = 0 ∧
    (∀ t : ℚ, 0 < t → t ≤ 100 →
      ∃ entries,
        getLowAttendanceStudents (some t) (run db0 reqs) =
          ⟨200, true, none, some ⟨t, entries.length, entries⟩⟩ ∧
        ∃ e ∈ entries, e.student.id = id ∧ e.attendancePercentage = 0) ∧
    (∃ sm, getPerformanceSummary (.oid id) (run db0 reqs) = ⟨200, true, none, some sm⟩ ∧
      sm.performance.lowAttendance = some true) := by
  have hwf := run_wellFormed reqs db0 (wellFormed_of_no_records h0)
  have hpid : p.studentId = id := Performance.findOne_studentId hp
  have hpmem := Performance.findOne_mem hp
  have hzero : p.attendancePercentage = 0 :=
    run_keeps_zero_attendance reqs db0 id hno (by simp [h0]) p hpmem hpid
  refine ⟨hzero, ?_, ?_⟩
  · intro t ht0 ht1
    obtain ⟨entries, he, hmap⟩ := getLowAttendanceStudents_of_pos t ht0 ht1 (run db0 reqs)
      (fun r hr => (hwf.1 r hr).2)
    refine ⟨entries, he, ?_⟩
    obtain ⟨e, hmem, h1, h2, -⟩ := entry_of_low_record hmap hpmem (by rw [hzero]; exact ht0)
    exact ⟨e, hmem, by rw [h1, hpid], by rw [h2, hzero]⟩
  · have hs : (Student.findById (run db0 reqs) id).isSome = true := by
      rw [← hpid]; exact (hwf.1 p hpmem).2
    obtain ⟨s, hs⟩ := Option.isSome_iff_exists.mp hs
    have hsum : getPerformanceSummary (.oid id) (run db0 reqs) = ⟨200, true, none, some
        { student := ⟨s._id, s.name, s.rollNumber, s.studentClass, s.sectionName⟩,
          performance :=
            { marks := p.marks, averageMarks := p.averageMarks,
              attendancePercentage := p.attendancePercentage,
              performanceStatus := p.performanceStatus,
              lowAttendance := some (isLowAttendanceDefault p.attendancePercentage),
              lastUpdated := some p.lastUpdated, hasData := true } }⟩ := by
      simp only [getPerformanceSummary, hs, hp]
    refine ⟨_, hsum, ?_⟩
    simp [isLowAttendanceDefault, isLowAttendance, hzero]

/-- C27 at a concrete input: a student is created and two marks submissions follow. -/
theorem marks_only_student_has_low_attendance_witness :
    Store.empty.performances = [] ∧
    Performance.findOne (run Store.empty twoSubmissions) 0 =
      some ⟨0, [("math", 80), ("science", 90)], 0, 90, "Excellent", 3⟩ ∧
    (∀ t : ℚ, 0 < t → t ≤ 100 →
      ∃ entries,
        getLowAttendanceStudents (some t) (run Store.empty twoSubmissions) =
          ⟨200, true, none, some ⟨t, entries.length, entries⟩⟩ ∧
        ∃ e ∈ entries, e.student.id = 0 ∧ e.attendancePercentage = 0) ∧
    (∃ sm, getPerformanceSummary (.oid 0) (run Store.empty twoSubmissions) =
        ⟨200, true, none, some sm⟩ ∧
      sm.performance.lowAttendance = some true) :=
  ⟨rfl, by rw [run_twoSubmissions]; rfl,
   (marks_only_student_has_low_attendance Store.empty rfl twoSubmissions 0
      ⟨0, [("math", 80), ("science", 90)], 0, 90, "Excellent", 3⟩
      (by
        intro r hr areq h
        simp only [twoSubmissions, List.mem_cons, List.mem_singleton, List.not_mem_nil,
          or_false] at hr
        rcases hr with rfl | rfl | rfl <;> simp at h)
      (by rw [run_twoSubmissions]; rfl)).2⟩

/-! ## The summary flag and the listing at threshold 75 -/

/-- C28: in a store where every record refers to a stored student and no two records
refer to the same student (so in every reachable state), for a student holding a
record the summary's `lowAttendance` is `true` iff an entry of
`getLowAttendanceStudents` at threshold 75 has the student's identifier. -/
theorem summary_flag_agrees_with_listing (db : Store)
    (hjoin : ∀ r ∈ db.performances, (Student.findById db r.studentId).isSome = true)
    (hnd : (db.performances.map (fun r => r.studentId)).Nodup)
    (id : ObjectId) (p : Performance) (hp : Performance.findOne db id = some p) :
    ∃ sm entries,
      getPerformanceSummary (.oid id) db = ⟨200, true, none, some sm⟩ ∧
      getLowAttendanceStudents (some 75) db =
        ⟨200, true, none, some ⟨75, entries.length, entries⟩⟩ ∧
      (sm.performance.lowAttendance = some true ↔ ∃ e ∈ entries, e.student.id = id) := by
  have hpid : p.studentId = id := Performance.findOne_studentId hp
  have hpmem := Performance.findOne_mem hp
  have hs : (Student.findById db id).isSome = true := by
    rw [← hpid]; exact hjoin p hpmem
  obtain ⟨s, hs⟩ := Option.isSome_iff_exists.mp hs
  obtain ⟨entries, he, hmap⟩ := getLowAttendanceStudents_of_pos 75 (by norm_num)
    (by norm_num) db hjoin
  have hsum : getPerformanceSummary (.oid id) db = ⟨200, true, none, some
      { student := ⟨s._id, s.name, s.rollNumber, s.studentClass, s.sectionName⟩,
        performance :=
          { marks := p.marks, averageMarks := p.averageMarks,
            attendancePercentage := p.attendancePercentage,
            performanceStatus := p.performanceStatus,
            lowAttendance := some (isLowAttendanceDefault p.attendancePercentage),
            lastUpdated := some p.lastUpdated, hasData := true } }⟩ := by
    simp only [getPerformanceSummary, hs, hp]
  refine ⟨_, entries, hsum, he, ?_⟩
  simp only [Option.some.injEq, isLowAttendanceDefault, isLowAttendance, decide_eq_true_eq]
  constructor
  · intro hlow
    obtain ⟨e, hmem, h1, -, -⟩ := entry_of_low_record hmap hpmem hlow
    exact ⟨e, hmem, by rw [h1, hpid]⟩
  · rintro ⟨e, hmem, heid⟩
    obtain ⟨r, hr, hlow, hrid⟩ := record_of_entry hmap hmem
    have hrp : r = p :=
      List.inj_on_of_nodup_map hnd hr hpmem (by rw [hrid, heid, hpid])
    rw [← hrp]
    exact hlow

/-- C28 at concrete inputs: a student with attendance 50, listed and flagged. -/
theorem summary_flag_agrees_with_listing_witness :
    Performance.findOne lowStore 0 = some ⟨0, [], 50, 0, "Poor", 2⟩ ∧
    ∃ sm entries,
      getPerformanceSummary (.oid 0) lowStore = ⟨200, true, none, some sm⟩ ∧
      getLowAttendanceStudents (some 75) lowStore =
        ⟨200, true, none, some ⟨75, entries.length, entries⟩⟩ ∧
      (sm.performance.lowAttendance = some true ↔ ∃ e ∈ entries, e.student.id = 0) :=
  ⟨rfl,
   summary_flag_agrees_with_listing lowStore
    (by
      intro r hr
      simp only [lowStore, List.mem_singleton] at hr
      subst hr
      rfl)
    (by simp [lowStore]) 0 ⟨0, [], 50, 0, "Poor", 2⟩ rfl⟩

/-! ## What a marks submission leaves alone -/

/-- C29: a successful `addMarks` for a student holding a record writes its record over
the student's first record and changes nothing else in the store; the record keeps its
`attendancePercentage` and `studentId`, and the record found for any other student is
the one found before. -/
theorem addMarks_frame (req : MarksRequest) (now : Nat) (db : Store) (id : ObjectId)
    (p : Performance)
    (hid : req.studentId = .oid id) (hp : Performance.findOne db id = some p)
    (hok : (addMarks req now db).1.status = 200) :
    ∃ q, Performance.findOne (addMarks req now db).2 id = some q ∧
      q.attendancePercentage = p.attendancePercentage ∧ q.studentId = p.studentId ∧
      (addMarks req now db).2 = { db with
        performances := replaceFirst (fun r => r.studentId == id) q db.performances } ∧
      (∀ other, other ≠ id →
        Performance.findOne (addMarks req now db).2 other = Performance.findOne db other) := by
  obtain ⟨id', marks, hid', hm, hs, hv⟩ := addMarks_inv hok
  rw [hid] at hid'
  cases hid'
  have hpid : p.studentId = id := Performance.findOne_studentId hp
  rw [addMarks_existing hid hm hs hv hp] at hok ⊢
  split_ifs at hok ⊢ with hval
  · refine ⟨{ p with
        marks := spread p.marks (numericMarks marks),
        averageMarks := calculateAverage (numericMarks marks),
        performanceStatus := classifyPerformance (calculateAverage (numericMarks marks)),
        lastUpdated := now }, ?_, rfl, rfl, rfl, ?_⟩
    · exact find?_replaceFirst_hit _ _ _ (by simpa using hpid)
        (by unfold Performance.findOne at hp; simp [hp])
    · intro other hne
      unfold Performance.findOne
      apply find?_replaceFirst_other
      · intro x hx
        simp only [beq_iff_eq] at hx
        simp only [beq_eq_false_iff_ne, ne_eq]
        rw [hx]; exact fun h => hne h.symm
      · simp only [beq_eq_false_iff_ne, ne_eq]
        rw [hpid]; exact fun h => hne h.symm
  · simp at hok

/-- C29 at a concrete input: `{science: 90}` submitted over the stored `{math: 80}`. -/
theorem addMarks_frame_witness :
    Performance.findOne mathStore 0 = some mathRecord ∧
    (addMarks scienceRequest 3 mathStore).1.status = 200 ∧
    ∃ q, Performance.findOne (addMarks scienceRequest 3 mathStore).2 0 = some q ∧
      q.attendancePercentage = mathRecord.attendancePercentage ∧
      q.studentId = mathRecord.studentId ∧
      (addMarks scienceRequest 3 mathStore).2 = { mathStore with
        performances :=
          replaceFirst (fun r => r.studentId == 0) q mathStore.performances } ∧
      (∀ other, other ≠ 0 →
        Performance.findOne (addMarks scienceRequest 3 mathStore).2 other =
          Performance.findOne mathStore other) :=
  ⟨rfl, by rw [addMarks_scienceRequest],
   addMarks_frame scienceRequest 3 mathStore 0 mathRecord rfl rfl
    (by rw [addMarks_scienceRequest])⟩

/-! ## Submitting the same marks twice -/

theorem setKey_eq_self {m : Marks} {k : String} {v : ℚ} (h : List.lookup k m = some v) :
    setKey m k v = m := by
  induction m with
  | nil => simp [List.lookup] at h
  | cons e rest ih =>
    obtain ⟨k1, v1⟩ := e
    by_cases hk : k1 = k
    · subst hk
      simp only [List.lookup, beq_self_eq_true, Option.some.injEq] at h
      simp [setKey, h]
    · have hb : (k == k1) = false := by simpa using fun h => hk h.symm
      simp only [List.lookup, hb] at h
      simp [setKey, hk, ih h]

theorem spread_eq_self {m over : Marks} (h : ∀ e ∈ over, List.lookup e.1 m = some e.2) :
    spread m over = m := by
  induction over with
  | nil => rfl
  | cons e rest ih =>
    rw [spread_cons, setKey_eq_self (h e (List.mem_cons_self _ _))]
    exact ih (fun x hx => h x (List.mem_cons_of_mem _ hx))

theorem spread_spread (m over : Marks) (hnd : (over.map Prod.fst).Nodup) :
    spread (spread m over) over = spread m over :=
  spread_eq_self (fun _ he => lookup_spread_of_mem m over hnd he)

theorem lookup_of_mem_nodup {m : Marks} (hnd : (m.map Prod.fst).Nodup) {e : String × ℚ}
    (he : e ∈ m) : List.lookup e.1 m = some e.2 := by
  induction m with
  | nil => simp at he
  | cons x rest ih =>
    obtain ⟨k1, v1⟩ := x
    simp only [List.map_cons, List.nodup_cons] at hnd
    rcases List.mem_cons.mp he with rfl | hmem
    · simp [List.lookup]
    · have hne : e.1 ≠ k1 := by
        intro h
        apply hnd.1
        rw [← h]
        exact List.mem_map.mpr ⟨e, hmem, rfl⟩
      have hb : (e.1 == k1) = false := by simpa using hne
      simp only [List.lookup, hb]
      exact ih hnd.2 hmem

theorem spread_self (m : Marks) (hnd : (m.map Prod.fst).Nodup) : spread m m = m :=
  spread_eq_self (fun _ he => lookup_of_mem_nodup hnd he)

theorem map_replaceFirst_self {α β : Type} (f : α → β) (hit : α → Bool) (x y : α)
    (l : List α) (hx : l.find? hit = some x) (h : f y = f x) :
    (replaceFirst hit y l).map f = l.map f := by
  induction l with
  | nil => simp at hx
  | cons a as ih =>
    by_cases ha : hit a = true
    · simp only [List.find?_cons, ha, Option.some.injEq] at hx
      subst hx
      simp [replaceFirst, ha, h]
    · have ha' : hit a = false := by simpa using ha
      simp only [List.find?_cons, ha'] at hx
      simp [replaceFirst, ha', ih hx]

theorem validate_congr {a b : Performance} (h : storedData a = storedData b) :
    a.validate = b.validate := by
  simp only [storedData, Prod.mk.injEq] at h
  obtain ⟨-, -, h3, h4, h5⟩ := h
  simp only [Performance.validate, h3, h4, h5]

theorem addMarks_again {req : MarksRequest} {now : Nat} {db : Store} {id : ObjectId}
    {marks : List (String × JsVal)} {q : Performance}
    (hid : req.studentId = .oid id) (hm : req.marks = some marks)
    (hs : (Student.findById db id).isSome = true) (hv : firstInvalidSubject marks = none)
    (hq : Performance.findOne db id = some q)
    (hmarks : spread q.marks (numericMarks marks) = q.marks)
    (havg : q.averageMarks = calculateAverage (numericMarks marks))
    (hst : q.performanceStatus = classifyPerformance (calculateAverage (numericMarks marks)))
    (hval : q.validate = true) :
    (addMarks req now db).1.status = 200 ∧
    (addMarks req now db).2.students = db.students ∧
    (addMarks req now db).2.performances.map storedData = db.performances.map storedData := by
  have hsd : storedData { q with
      marks := spread q.marks (numericMarks marks),
      averageMarks := calculateAverage (numericMarks marks),
      performanceStatus := classifyPerformance (calculateAverage (numericMarks marks)),
      lastUpdated := now } = storedData q := by
    simp only [storedData]
    rw [hmarks, havg, hst]
  rw [addMarks_existing hid hm hs hv hq, if_pos (by rw [validate_congr hsd]; exact hval)]
  refine ⟨rfl, rfl, ?_⟩
  exact map_replaceFirst_self storedData _ q _ _ hq hsd

theorem find?_append_singleton {α : Type} (hit : α → Bool) (l : List α) (y : α)
    (hl : l.find? hit = none) (hy : hit y = true) : (l ++ [y]).find? hit = some y := by
  simp [List.find?_append, hl, hy]

/-- C30: `addMarks` sent twice in a row (a marks object has distinct keys) gives the
second time the status of the first time and leaves the students and, `lastUpdated`
apart, every performance record as the first submission left them: marks,
`averageMarks`, `performanceStatus` and `attendancePercentage` are unchanged. -/
theorem addMarks_idempotent (req : MarksRequest) (now1 now2 : Nat) (db : Store)
    (hnd : ∀ marks, req.marks = some marks → (marks.map Prod.fst).Nodup) :
    (addMarks req now2 (addMarks req now1 db).2).1.status = (addMarks req now1 db).1.status ∧
    (addMarks req now2 (addMarks req now1 db).2).2.students =
      (addMarks req now1 db).2.students ∧
    (addMarks req now2 (addMarks req now1 db).2).2.performances.map storedData =
      (addMarks req now1 db).2.performances.map storedData := by
  obtain ⟨sid, m⟩ := req
  cases m with
  | none => simp [addMarks]
  | some marks =>
    have hnd' := hnd marks rfl
    cases sid with
    | malformed => simp [addMarks]
    | oid id =>
      cases hs : Student.findById db id with
      | none => simp [addMarks, hs]
      | some s =>
        cases hv : firstInvalidSubject marks with
        | some subject => simp [addMarks, hs, hv]
        | none =>
          have hs' : (Student.findById db id).isSome = true := by simp [hs]
          have hndn : ((numericMarks marks).map Prod.fst).Nodup := by
            rw [keys_numericMarks (firstInvalidSubject_eq_none.mp hv)]
            exact hnd'
          cases hp : Performance.findOne db id with
          | some p =>
            have hpid : p.studentId = id := Performance.findOne_studentId hp
            have e1 := @addMarks_existing ⟨.oid id, some marks⟩ now1 db id marks p
              rfl rfl hs' hv hp
            have e2 := @addMarks_existing ⟨.oid id, some marks⟩ now2 db id marks p
              rfl rfl hs' hv hp
            split_ifs at e1 with hval
            · rw [e1]
              exact addMarks_again rfl rfl hs' hv
                (find?_replaceFirst_hit (fun r : Performance => r.studentId == id) _ db.performances
                  (by simpa using hpid) (by unfold Performance.findOne at hp; simp [hp]))
                (spread_spread p.marks (numericMarks marks) hndn) rfl rfl hval
            · split_ifs at e2 with hval2
              · exact absurd hval2 hval
              · rw [e1, e2]
                exact ⟨rfl, rfl, rfl⟩
          | none =>
            have e1 := @addMarks_new ⟨.oid id, some marks⟩ now1 db id marks
              rfl rfl hs' hv hp
            rw [e1]
            exact addMarks_again rfl rfl hs' hv
              (find?_append_singleton (fun r : Performance => r.studentId == id) db.performances _ hp
                (by simp))
              (spread_self (numericMarks marks) hndn) rfl rfl
              (validate_marks_record hv id now1)

/-- C30 at a concrete input: `{science: 90}` submitted twice over the stored
`{math: 80}`. -/
theorem addMarks_idempotent_witness :
    ([("science", JsVal.num 90)].map Prod.fst).Nodup ∧
    (addMarks scienceRequest 3 mathStore).1.status = 200 ∧
    (addMarks scienceRequest 4 (addMarks scienceRequest 3 mathStore).2).1.status =
      (addMarks scienceRequest 3 mathStore).1.status ∧
    (addMarks scienceRequest 4 (addMarks scienceRequest 3 mathStore).2).2.students =
      (addMarks scienceRequest 3 mathStore).2.students ∧
    (addMarks scienceRequest 4 (addMarks scienceRequest 3 mathStore).2).2.performances.map
        storedData =
      (addMarks scienceRequest 3 mathStore).2.performances.map storedData :=
  ⟨by simp, by rw [addMarks_scienceRequest],
   addMarks_idempotent scienceRequest 3 4 mathStore (by
      intro marks h
      simp only [scienceRequest, Option.some.injEq] at h
      subst h
      simp)⟩

end Tracker
